import Mathlib

/-!
Shallow embedding of the UNO "No Mercy" rules engine and AI decision module
(`src/lib/game-logic.ts`, AI module, `src/types/game.ts`) together with proofs
of the specification claims about them.

Modelling conventions:
* Card / player identifiers (uuid strings in the source) are `String`s.
* Ambient randomness (`Math.random`) and uuid generation (`uuidv4()`) are
  modelled by explicitly passed functions (`rnd : Nat → Nat`,
  `idGen : Nat → String`); every theorem quantifies over them, which subsumes
  any concrete random stream.  `Math.floor(Math.random() * n)` (a uniform
  choice in `[0, n)`) is modelled as `rnd i % n`.
* Functions that can throw in TypeScript (explicit `throw`, or a `TypeError`
  from dereferencing `undefined` after an out-of-range index) return
  `Option _`; `none` is any thrown error.
* The `createdAt` / `updatedAt` wall-clock timestamp strings are omitted from
  the state: no claim or branch of the source reads them.
* JavaScript `%` on the non-negative operands that actually occur agrees with
  `Int.emod`; the degenerate `x % 0` (NaN in JavaScript) only arises for an
  empty roster, which every theorem below excludes by hypothesis.
-/

/-! ### Data model (`src/types/game.ts`) -/

inductive CardColor where
  | red | blue | green | yellow | wild
deriving DecidableEq, Repr

inductive CardType where
  | number | skip | reverse
  | draw2 | draw4 | draw6 | draw10
  | wild | wild_draw2 | wild_draw4 | wild_draw_color
  | skip_everyone | reverse_everyone | discard_all | color_roulette
deriving DecidableEq, Repr

structure Card where
  id : String
  type : CardType
  color : CardColor
  value : Option Nat
deriving DecidableEq, Repr

structure Player where
  id : String
  name : String
  cards : List Card
  isAI : Bool
  isHost : Bool
  isConnected : Bool
  hasCalledUno : Bool
deriving DecidableEq, Repr

inductive GameStatus where
  | waiting | playing | finished
deriving DecidableEq, Repr

structure GameState where
  id : String
  status : GameStatus
  players : List Player
  currentPlayerIndex : Nat
  direction : Int
  drawPile : List Card
  discardPile : List Card
  currentColor : CardColor
  pendingDrawCount : Nat
  pendingDrawType : Option CardType
  winnerId : Option String
  hostId : String
  roomCode : String
  maxPlayers : Nat
  isPrivate : Bool
deriving DecidableEq, Repr

/-! ### Generic list helpers

`mapWithIdx` models `Array.prototype.map((x, idx) => ...)` and `findIndex`
models `Array.prototype.findIndex` (returning `none` for `-1`). -/

def mapWithIdx (f : Nat → α → β) : Nat → List α → List β
  | _, [] => []
  | i, a :: as => f i a :: mapWithIdx f (i + 1) as

def findIndex (p : α → Bool) : List α → Option Nat
  | [] => none
  | a :: as => if p a then some 0 else (findIndex p as).map (· + 1)

theorem length_mapWithIdx (f : Nat → α → β) (n : Nat) (l : List α) :
    (mapWithIdx f n l).length = l.length := by
  induction l generalizing n with
  | nil => rfl
  | cons a as ih => simp [mapWithIdx, ih]

theorem get?_mapWithIdx (f : Nat → α → β) (n : Nat) (l : List α) (i : Nat) :
    (mapWithIdx f n l).get? i = (l.get? i).map (f (n + i)) := by
  induction l generalizing n i with
  | nil => simp [mapWithIdx]
  | cons a as ih =>
    cases i with
    | zero => simp [mapWithIdx]
    | succ j =>
      have harg : n + 1 + j = n + (j + 1) := by omega
      simp only [mapWithIdx, List.get?_cons_succ, ih (n + 1) j, harg]

theorem findIndex_lt_length (p : α → Bool) (l : List α) (i : Nat)
    (h : findIndex p l = some i) : i < l.length := by
  induction l generalizing i with
  | nil => simp [findIndex] at h
  | cons a as ih =>
    by_cases hp : p a
    · simp only [findIndex, hp, if_pos, Option.some.injEq] at h
      subst h
      simp
    · simp only [findIndex, hp, if_neg, Option.map_eq_some', Bool.false_eq_true,
        not_false_iff] at h
      obtain ⟨j, hj, rfl⟩ := h
      have := ih j hj
      simp only [List.length_cons]
      omega

theorem findIndex_found (p : α → Bool) (l : List α) (i : Nat)
    (h : findIndex p l = some i) : ∃ a, l.get? i = some a ∧ p a = true := by
  induction l generalizing i with
  | nil => simp [findIndex] at h
  | cons a as ih =>
    by_cases hp : p a
    · simp only [findIndex, hp, if_pos, Option.some.injEq] at h
      subst h
      exact ⟨a, rfl, hp⟩
    · simp only [findIndex, hp, if_neg, Option.map_eq_some', Bool.false_eq_true,
        not_false_iff] at h
      obtain ⟨j, hj, rfl⟩ := h
      obtain ⟨b, hb, hpb⟩ := ih j hj
      exact ⟨b, by simpa using hb, hpb⟩

theorem findIndex_isSome_of_mem (p : α → Bool) (l : List α) (a : α)
    (ha : a ∈ l) (hp : p a = true) : (findIndex p l).isSome := by
  induction l with
  | nil => simp at ha
  | cons b bs ih =>
    by_cases hb : p b
    · simp [findIndex, hb]
    · rcases List.mem_cons.mp ha with rfl | ha'
      · exact absurd hp (by simp [hb])
      · simp only [findIndex, hb, if_neg]
        simpa [Option.isSome_map] using ih ha'

/-! ### Deck Builder (`src/lib/game-logic.ts`) -/

/-- One swap `[shuffled[i], shuffled[j]] = [shuffled[j], shuffled[i]]` of the
Fisher–Yates loop. -/
def swapAt (l : List α) (i j : Nat) : List α :=
  match l.get? i, l.get? j with
  | some a, some b => (l.set i b).set j a
  | _, _ => l

/-- The Fisher–Yates loop of `shuffleDeck`, counting `i` down to `1`;
`j = Math.floor(Math.random() * (i + 1))` is modelled as `rnd i % (i + 1)`. -/
def fyLoop (rnd : Nat → Nat) : Nat → List α → List α
  | 0, l => l
  | Nat.succ k, l => fyLoop rnd k (swapAt l (k + 1) (rnd (k + 1) % (k + 2)))

/-- `shuffleDeck(deck)`: Fisher–Yates shuffle, swapping from the end; does not
mutate its input (trivially so in this functional embedding). -/
def shuffleDeck (rnd : Nat → Nat) (deck : List α) : List α :=
  fyLoop rnd (deck.length - 1) deck

theorem count_swapAt [DecidableEq α] (l : List α) (i j : Nat) (x : α) :
    (swapAt l i j).count x = l.count x := by
  unfold swapAt
  cases hi : l.get? i with
  | none => rfl
  | some a =>
    cases hj : l.get? j with
    | none => rfl
    | some b =>
      have hil : i < l.length := List.get?_eq_some.mp hi |>.1
      have hjl : j < l.length := List.get?_eq_some.mp hj |>.1
      have hia : l[i] = a := by
        have h := hi
        rw [List.get?_eq_getElem?, List.getElem?_eq_getElem hil] at h
        exact Option.some.inj h
      have hjb : l[j] = b := by
        have h := hj
        rw [List.get?_eq_getElem?, List.getElem?_eq_getElem hjl] at h
        exact Option.some.inj h
      have hjl' : j < (l.set i b).length := by simpa using hjl
      have h1 := List.count_set b x l i hil
      have h2 := List.count_set a x (l.set i b) j hjl'
      have hsetj : (l.set i b)[j] = b := by
        rw [List.getElem_set]
        split
        · rfl
        · exact hjb
      rw [hsetj] at h2
      rw [h1] at h2
      rw [h2, hia]
      by_cases hax : a = x
      · have hpos : 0 < l.count x :=
          List.count_pos_iff.mpr (hax ▸ List.get?_mem hi)
        by_cases hbx : b = x <;> simp [hax, hbx] <;> omega
      · by_cases hbx : b = x <;> simp [hax, hbx]

theorem perm_swapAt [DecidableEq α] (l : List α) (i j : Nat) :
    (swapAt l i j).Perm l :=
  List.perm_iff_count.mpr fun x => count_swapAt l i j x

theorem perm_fyLoop [DecidableEq α] (rnd : Nat → Nat) (k : Nat) (l : List α) :
    (fyLoop rnd k l).Perm l := by
  induction k generalizing l with
  | zero => exact List.Perm.refl l
  | succ m ih =>
    exact (ih _).trans (perm_swapAt _ _ _)

theorem perm_shuffleDeck [DecidableEq α] (rnd : Nat → Nat) (deck : List α) :
    (shuffleDeck rnd deck).Perm deck :=
  perm_fyLoop rnd _ deck

theorem length_shuffleDeck [DecidableEq α] (rnd : Nat → Nat) (deck : List α) :
    (shuffleDeck rnd deck).length = deck.length :=
  (perm_shuffleDeck rnd deck).length_eq
/-- The fixed list of colors iterated by the deck-construction loops. -/
def COLORS : List CardColor := [.red, .blue, .green, .yellow]

/-- The (type, color, value) population built by `createDeck()`, in the push
order of the source loops; identifiers are attached separately. -/
def deckTemplate : List (CardType × CardColor × Option Nat) :=
  (COLORS.flatMap fun color =>
    [(.number, color, some 0)]
    ++ ((List.range 9).flatMap fun i =>
          [(.number, color, some (i + 1)), (.number, color, some (i + 1))])
    ++ ((List.range 2).flatMap fun _ =>
          [(.skip, color, none), (.reverse, color, none), (.draw2, color, none)])
    ++ [(.draw6, color, none), (.skip_everyone, color, none), (.discard_all, color, none)])
  ++ ((List.range 4).flatMap fun _ =>
        [(.wild, CardColor.wild, none), (.wild_draw4, CardColor.wild, none)])
  ++ ((List.range 2).flatMap fun _ =>
        [(.wild_draw2, CardColor.wild, none), (.wild_draw_color, CardColor.wild, none),
         (.draw10, CardColor.wild, none), (.color_roulette, CardColor.wild, none),
         (.reverse_everyone, CardColor.wild, none)])

/-- `createDeck()`: each pushed card receives a fresh uuid, modelled by the
position-indexed generator `idGen`. -/
def createDeck (idGen : Nat → String) : List Card :=
  mapWithIdx (fun i t => { id := idGen i, type := t.1, color := t.2.1, value := t.2.2 })
    0 deckTemplate

/-- The identity-free content of a card, for multiset statements about the
deck composition. -/
def kindOf (c : Card) : CardType × CardColor × Option Nat := (c.type, c.color, c.value)

/-- How many cards of a given (type, color, value) combination a deck holds. -/
def countKind (d : List Card) (t : CardType) (c : CardColor) (v : Option Nat) : Nat :=
  (d.map kindOf).count (t, c, v)

theorem map_kindOf_mapWithIdx (idGen : Nat → String)
    (l : List (CardType × CardColor × Option Nat)) (n : Nat) :
    (mapWithIdx (fun i t => Card.mk (idGen i) t.1 t.2.1 t.2.2) n l).map kindOf = l := by
  induction l generalizing n with
  | nil => rfl
  | cons t ts ih =>
    obtain ⟨ty, co, va⟩ := t
    simpa [mapWithIdx, kindOf] using ih (n + 1)

theorem map_kindOf_createDeck (idGen : Nat → String) :
    (createDeck idGen).map kindOf = deckTemplate :=
  map_kindOf_mapWithIdx idGen deckTemplate 0

theorem length_createDeck (idGen : Nat → String) :
    (createDeck idGen).length = deckTemplate.length := by
  have h := congrArg List.length (map_kindOf_createDeck idGen)
  simpa using h
/-- `dealCards(deck, numCards)`: `(dealt, remaining)`. -/
def dealCards (deck : List Card) (numCards : Nat) : List Card × List Card :=
  (deck.take numCards, deck.drop numCards)

/-! ### Rules Engine (`src/lib/game-logic.ts`) -/

/-- `getTopCard`: `discardPile[discardPile.length - 1]` (the end of the list is
the top of the pile; `undefined` on an empty pile). -/
def getTopCard (s : GameState) : Option Card :=
  s.discardPile.getLast?

/-- The list of stackable draw types checked by `canStackDrawCard`. -/
def drawTypes : List CardType :=
  [.draw2, .draw4, .draw6, .draw10, .wild_draw2, .wild_draw4, .wild_draw_color]

/-- The `drawValues` table of `canStackDrawCard` (an explicitly total map in
the source). -/
def drawValue : CardType → Nat
  | .draw2 => 2
  | .wild_draw2 => 2
  | .draw4 => 4
  | .wild_draw4 => 4
  | .draw6 => 6
  | .wild_draw_color => 4
  | .draw10 => 10
  | .number => 0
  | .skip => 0
  | .reverse => 0
  | .wild => 0
  | .skip_everyone => 0
  | .reverse_everyone => 0
  | .discard_all => 0
  | .color_roulette => 0

/-- `canStackDrawCard(card, pendingType)`: draw cards stack on a pending draw
of the same or lower value. -/
def canStackDrawCard (card : Card) (pendingType : CardType) : Bool :=
  if ¬ (card.type ∈ drawTypes) then false
  else drawValue pendingType ≤ drawValue card.type

/-- The `drawCounts` table of `getDrawCount` (identical values to
`drawValue`; kept separate as in the source). -/
def getDrawCount (cardType : CardType) : Nat :=
  drawValue cardType

/-- `isDrawCard` in the rules engine. -/
def isDrawCard (cardType : CardType) : Bool :=
  0 < getDrawCount cardType

/-- One turn-advance step `(next + direction + numPlayers) % numPlayers`. -/
def stepIndex (next : Nat) (direction : Int) (numPlayers : Nat) : Nat :=
  (((next : Int) + direction + numPlayers) % numPlayers).toNat

/-- `getNextPlayerIndex(state, skip)`. -/
def getNextPlayerIndex (s : GameState) (skip : Nat) : Nat :=
  (List.range skip).foldl (fun next _ => stepIndex next s.direction s.players.length)
    s.currentPlayerIndex

/-- The color / number / action matching tail of `canPlayCard` (reached when
no pending draw is active). -/
def canPlayCardMatch (s : GameState) (card topCard : Card) : Bool :=
  if card.color = CardColor.wild then true
  else if card.color = s.currentColor then true
  else if card.type = CardType.number ∧ topCard.type = CardType.number
      ∧ card.value = topCard.value then true
  else if card.type = topCard.type ∧ card.type ≠ CardType.number then true
  else false

/-- `canPlayCard(state, card, playerId)`.  Returns `none` for the JavaScript
`TypeError` raised when `state.players[state.currentPlayerIndex]` is
`undefined` (only reachable with a non-empty discard pile). -/
def canPlayCard (s : GameState) (card : Card) (playerId : String) : Option Bool :=
  match getTopCard s with
  | none => some true
  | some topCard =>
    match s.players.get? s.currentPlayerIndex with
    | none => none
    | some currentPlayer =>
      if currentPlayer.id ≠ playerId then some false
      else
        match s.pendingDrawType with
        | some pendingType =>
          if 0 < s.pendingDrawCount then some (canStackDrawCard card pendingType)
          else some (canPlayCardMatch s card topCard)
        | none => some (canPlayCardMatch s card topCard)
/-- `initializeGame(hostId, hostName, roomCode, maxPlayers)`.  `none` models
the `TypeError` on `startingCard.color` when the post-deal deck is empty
(unreachable for the 130-card deck actually produced). -/
def initializeGame (rnd : Nat → Nat) (idGen : Nat → String) (gameId : String)
    (hostId hostName roomCode : String) (maxPlayers : Nat) : Option GameState :=
  let deck := shuffleDeck rnd (createDeck idGen)
  let deal := dealCards deck 7
  let hostCards := deal.1
  let afterHostDeal := deal.2
  let startingCardIndex :=
    match findIndex (fun card => card.type = CardType.number) afterHostDeal with
    | some i => i
    | none => 0
  match afterHostDeal.get? startingCardIndex with
  | none => none
  | some startingCard =>
    let drawPile := afterHostDeal.take startingCardIndex
      ++ afterHostDeal.drop (startingCardIndex + 1)
    let host : Player :=
      { id := hostId, name := hostName, cards := hostCards, isAI := false,
        isHost := true, isConnected := true, hasCalledUno := false }
    some
      { id := gameId, status := .waiting, players := [host], currentPlayerIndex := 0,
        direction := 1, drawPile := drawPile, discardPile := [startingCard],
        currentColor := if startingCard.color = CardColor.wild then .red else startingCard.color,
        pendingDrawCount := 0, pendingDrawType := none, winnerId := none,
        hostId := hostId, roomCode := roomCode, maxPlayers := maxPlayers,
        isPrivate := false }

/-- `addPlayer(state, playerId, playerName, isAI)`. -/
def addPlayer (s : GameState) (playerId playerName : String) (isAI : Bool) :
    Option GameState :=
  if s.maxPlayers ≤ s.players.length then none
  else if s.status ≠ GameStatus.waiting then none
  else
    let newPlayer : Player :=
      { id := playerId, name := playerName, cards := [], isAI := isAI,
        isHost := false, isConnected := true, hasCalledUno := false }
    some { s with players := s.players ++ [newPlayer] }

/-- `startGame(state)`.  The deal threads the deck through the players in
roster order, exactly as the source's closure over `deck` does. -/
def startGame (rnd : Nat → Nat) (idGen : Nat → String) (s : GameState) :
    Option GameState :=
  if s.status ≠ GameStatus.waiting then none
  else if s.players.length < 2 then none
  else
    let deck0 := shuffleDeck rnd (createDeck idGen)
    let dealt := s.players.foldl
      (fun acc p =>
        let deal := dealCards acc.2 7
        (acc.1 ++ [{ p with cards := deal.1, hasCalledUno := false }], deal.2))
      (([] : List Player), deck0)
    let updatedPlayers := dealt.1
    let deck := dealt.2
    let startingCardIndex :=
      match findIndex (fun card => card.type = CardType.number) deck with
      | some i => i
      | none => 0
    match deck.get? startingCardIndex with
    | none => none
    | some startingCard =>
      some
        { s with
          status := .playing, players := updatedPlayers,
          currentPlayerIndex := 0, direction := 1,
          drawPile := deck.take startingCardIndex ++ deck.drop (startingCardIndex + 1),
          discardPile := [startingCard],
          currentColor := if startingCard.color = CardColor.wild then .red
            else startingCard.color,
          pendingDrawCount := 0, pendingDrawType := none }

/-- One iteration of the `drawCards` loop over the triple
`(newDrawPile, newDiscardPile, drawnCards)`: reshuffle the discard pile (minus
its top card, and with fresh identifiers) into the draw pile when the draw
pile is empty, then pop one card into `drawnCards` if possible. -/
def drawStep (rnd : Nat → Nat) (idGen : Nat → String)
    (st : List Card × List Card × List Card) : List Card × List Card × List Card :=
  let refilled :=
    if st.1.length = 0 then
      let topCard := st.2.1.getLast?
      let newPile := shuffleDeck rnd
        (mapWithIdx (fun i card => { card with id := idGen i }) 0 st.2.1.dropLast)
      (newPile, match topCard with | some t => [t] | none => ([] : List Card))
    else (st.1, st.2.1)
  match refilled.1.getLast? with
  | some c => (refilled.1.dropLast, refilled.2, st.2.2 ++ [c])
  | none => (refilled.1, refilled.2, st.2.2)

/-- The whole `for (let i = 0; i < count; i++)` loop of `drawCards`; the loop
index selects the randomness / uuid stream for that iteration's reshuffle. -/
def drawLoop (rnd : Nat → Nat → Nat) (idGen : Nat → Nat → String) (count : Nat)
    (init : List Card × List Card × List Card) : List Card × List Card × List Card :=
  (List.range count).foldl (fun st i => drawStep (rnd i) (idGen i) st) init

/-- `eliminatePlayer(state, playerId)` (called with `eRnd` for its reshuffle). -/
def eliminatePlayer (eRnd : Nat → Nat) (s : GameState) (playerId : String) : GameState :=
  match findIndex (fun p => p.id = playerId) s.players with
  | none => s
  | some playerIndex =>
    match s.players.get? playerIndex with
    | none => s
    | some eliminatedPlayer =>
      let remainingPlayers := s.players.filter (fun p => ¬ (p.id = playerId))
      let newDrawPile := shuffleDeck eRnd (s.drawPile ++ eliminatedPlayer.cards)
      let newCurrentIndex :=
        if playerIndex < s.currentPlayerIndex then s.currentPlayerIndex - 1
        else if playerIndex = s.currentPlayerIndex then
          s.currentPlayerIndex % remainingPlayers.length
        else s.currentPlayerIndex
      if remainingPlayers.length = 1 then
        { s with
          status := .finished, players := remainingPlayers,
          winnerId := remainingPlayers.head?.map Player.id,
          drawPile := newDrawPile, currentPlayerIndex := 0 }
      else
        { s with
          players := remainingPlayers, drawPile := newDrawPile,
          currentPlayerIndex := newCurrentIndex }

/-- `drawCards(state, playerId, count)`; throws (`none`) when the player is
unknown. -/
def drawCards (rnd : Nat → Nat → Nat) (idGen : Nat → Nat → String) (eRnd : Nat → Nat)
    (s : GameState) (playerId : String) (count : Nat) : Option GameState :=
  match findIndex (fun p => p.id = playerId) s.players with
  | none => none
  | some playerIndex =>
    let res := drawLoop rnd idGen count (s.drawPile, s.discardPile, [])
    let newDrawPile := res.1
    let newDiscardPile := res.2.1
    let drawnCards := res.2.2
    let newPlayers := mapWithIdx
      (fun idx p => if idx = playerIndex then
          { p with cards := p.cards ++ drawnCards, hasCalledUno := false }
        else p) 0 s.players
    match newPlayers.get? playerIndex with
    | none => none
    | some updatedPlayer =>
      if 25 ≤ updatedPlayer.cards.length then
        some (eliminatePlayer eRnd
          { s with
            players := newPlayers, drawPile := newDrawPile,
            discardPile := newDiscardPile } playerId)
      else
        some
          { s with
            players := newPlayers, drawPile := newDrawPile,
            discardPile := newDiscardPile }
/-- The `(currentPlayerIndex, direction, pending)` update shared by all
pending-draw cases of `handleCardEffect`. -/
def pendEffect (base : GameState) (s : GameState) (k : Nat) (t : CardType) : GameState :=
  { base with
    pendingDrawCount := s.pendingDrawCount + k,
    pendingDrawType := some t,
    currentPlayerIndex := getNextPlayerIndex base 1 }

/-- The `currentColor` update at the top of `handleCardEffect`: a wild card
takes the selected color when one was supplied, a colored card installs its
own color. -/
def resolveColor (cc : CardColor) (col : Option CardColor) (cur : CardColor) : CardColor :=
  if cc = CardColor.wild then
    match col with
    | some c => c
    | none => cur
  else cc

/-- `handleCardEffect(state, card, playerId, selectedColor)`; `crRnd` models
the `Math.random()` consumed by `color_roulette`.  (`playerId` is unused in
the source as well.) -/
def handleCardEffect (crRnd : Nat) (s : GameState) (card : Card)
    (playerId : String) (selectedColor : Option CardColor) : GameState :=
  let base : GameState :=
    { s with currentColor := resolveColor card.color selectedColor s.currentColor }
  match card.type with
  | .skip => { base with currentPlayerIndex := getNextPlayerIndex base 2 }
  | .reverse =>
    if s.players.length = 2 then
      { base with currentPlayerIndex := getNextPlayerIndex base 2 }
    else
      let flipped := { base with direction := s.direction * (-1) }
      { flipped with currentPlayerIndex := getNextPlayerIndex flipped 1 }
  | .skip_everyone => base
  | .reverse_everyone => { base with direction := s.direction * (-1) }
  | .draw2 => pendEffect base s 2 .draw2
  | .wild_draw2 => pendEffect base s 2 .wild_draw2
  | .draw4 => pendEffect base s 4 .draw4
  | .wild_draw4 => pendEffect base s 4 .wild_draw4
  | .draw6 => pendEffect base s 6 .draw6
  | .draw10 => pendEffect base s 10 .draw10
  | .wild_draw_color => pendEffect base s 4 .wild_draw_color
  | .color_roulette =>
    { base with
      currentColor := (COLORS.get? (crRnd % COLORS.length)).getD .red,
      currentPlayerIndex := getNextPlayerIndex base 1 }
  | _ => { base with currentPlayerIndex := getNextPlayerIndex base 1 }

/-- `playCard(state, playerId, card, selectedColor)`. -/
def playCard (crRnd : Nat) (s : GameState) (playerId : String) (card : Card)
    (selectedColor : Option CardColor) : Option GameState :=
  match canPlayCard s card playerId with
  | none => none
  | some false => none
  | some true =>
    match findIndex (fun p => p.id = playerId) s.players with
    | none => none
    | some playerIndex =>
      match s.players.get? playerIndex with
      | none => none
      | some player =>
        let newCards := player.cards.filter (fun c => ¬ (c.id = card.id))
        let s1 : GameState :=
          { s with
            discardPile := s.discardPile ++ [card],
            players := mapWithIdx
              (fun idx p => if idx = playerIndex then { p with cards := newCards } else p)
              0 s.players }
        let s2 := handleCardEffect crRnd s1 card playerId selectedColor
        if newCards.length = 0 then
          some { s2 with status := .finished, winnerId := some playerId }
        else some s2

/-- `playDiscardAll(state, playerId, cards)`. -/
def playDiscardAll (s : GameState) (playerId : String) (cards : List Card) :
    Option GameState :=
  if cards.length = 0 then none
  else
    match cards.head? with
    | none => none
    | some firstCard =>
      let color := firstCard.color
      if ¬ (cards.all fun c => c.color = color) then none
      else if color ≠ s.currentColor then none
      else
        match findIndex (fun p => p.id = playerId) s.players with
        | none => none
        | some playerIndex =>
          match s.players.get? playerIndex with
          | none => none
          | some player =>
            let cardIds := cards.map Card.id
            let newCards := player.cards.filter (fun c => ¬ (cardIds.contains c.id))
            let s1 : GameState :=
              { s with
                discardPile := s.discardPile ++ cards,
                players := mapWithIdx
                  (fun idx p => if idx = playerIndex then { p with cards := newCards } else p)
                  0 s.players,
                currentPlayerIndex := getNextPlayerIndex s 1 }
            if newCards.length = 0 then
              some { s1 with status := .finished, winnerId := some playerId }
            else some s1

/-- `processDrawPenalty(state)`. -/
def processDrawPenalty (rnd : Nat → Nat → Nat) (idGen : Nat → Nat → String)
    (eRnd : Nat → Nat) (s : GameState) : Option GameState :=
  if s.pendingDrawCount = 0 then some s
  else
    match s.players.get? s.currentPlayerIndex with
    | none => none
    | some currentPlayer =>
      match drawCards rnd idGen eRnd s currentPlayer.id s.pendingDrawCount with
      | none => none
      | some d =>
        some
          { d with
            pendingDrawCount := 0, pendingDrawType := none,
            currentPlayerIndex := getNextPlayerIndex d 1 }

/-- `callUno(state, playerId)`. -/
def callUno (s : GameState) (playerId : String) : Option GameState :=
  match findIndex (fun p => p.id = playerId) s.players with
  | none => none
  | some playerIndex =>
    match s.players.get? playerIndex with
    | none => none
    | some player =>
      if player.cards.length ≠ 1 then none
      else
        some
          { s with
            players := mapWithIdx
              (fun idx p => if idx = playerIndex then { p with hasCalledUno := true } else p)
              0 s.players }

/-- `challengeUno(state, challengerId, targetId)` (`challengerId` is unused in
the source as well). -/
def challengeUno (rnd : Nat → Nat → Nat) (idGen : Nat → Nat → String)
    (eRnd : Nat → Nat) (s : GameState) (challengerId targetId : String) :
    Option GameState :=
  match findIndex (fun p => p.id = targetId) s.players with
  | none => none
  | some targetIndex =>
    match s.players.get? targetIndex with
    | none => none
    | some target =>
      if target.cards.length ≠ 1 ∨ target.hasCalledUno then none
      else drawCards rnd idGen eRnd s targetId 4

/-- `getCurrentPlayer(state)` (`undefined`, i.e. `none`, when the index is out
of range). -/
def getCurrentPlayer (s : GameState) : Option Player :=
  s.players.get? s.currentPlayerIndex

/-- `getPlayableCards(state, playerId)`.  The `none` case models the
`TypeError` propagating out of the `filter` callback; whether `canPlayCard`
throws does not depend on the card, so the first callback invocation already
throws whenever any would. -/
def getPlayableCards (s : GameState) (playerId : String) : Option (List Card) :=
  match s.players.find? (fun p => p.id = playerId) with
  | none => some []
  | some player =>
    if player.cards.any (fun card => (canPlayCard s card playerId).isNone) then none
    else some (player.cards.filter (fun card => canPlayCard s card playerId = some true))

/-- `canPlayMultipleCards(state, cards, playerId)`; the `none` case models a
throwing `canPlayCard` reached through `cards.some(...)` (again uniform in the
card). -/
def canPlayMultipleCards (s : GameState) (cards : List Card) (playerId : String) :
    Option Bool :=
  match cards with
  | [] => some false
  | [c] => canPlayCard s c playerId
  | firstCard :: _ =>
    if firstCard.type ≠ CardType.number then some false
    else if ¬ (cards.all fun c => c.type = CardType.number ∧ c.value = firstCard.value) then
      some false
    else if cards.any (fun c => (canPlayCard s c playerId).isNone) then none
    else some (cards.any fun c => canPlayCard s c playerId = some true)

/-- The comparator of `playMultipleCards`' sort, as the stable-sort order
relation: `a` may precede `b` unless `a` is playable and `b` is not. -/
def playableLast (s : GameState) (playerId : String) (a b : Card) : Bool :=
  ¬ (canPlayCard s a playerId = some true ∧ ¬ (canPlayCard s b playerId = some true))

/-- `playMultipleCards(state, playerId, cards)`. -/
def playMultipleCards (s : GameState) (playerId : String) (cards : List Card) :
    Option GameState :=
  match canPlayMultipleCards s cards playerId with
  | none => none
  | some false => none
  | some true =>
    let sortedCards := cards.mergeSort (playableLast s playerId)
    match findIndex (fun p => p.id = playerId) s.players with
    | none => none
    | some playerIndex =>
      match s.players.get? playerIndex with
      | none => none
      | some player =>
        let cardIds := cards.map Card.id
        let newCards := player.cards.filter (fun c => ¬ (cardIds.contains c.id))
        match sortedCards.getLast? with
        | none => none
        | some lastCard =>
          let s1 : GameState :=
            { s with
              discardPile := s.discardPile ++ sortedCards,
              players := mapWithIdx
                (fun idx p => if idx = playerIndex then { p with cards := newCards } else p)
                0 s.players,
              currentColor := if lastCard.color = CardColor.wild then s.currentColor
                else lastCard.color,
              currentPlayerIndex := getNextPlayerIndex s 1 }
          if newCards.length = 0 then
            some { s1 with status := .finished, winnerId := some playerId }
          else some s1
/-! ### AI Decision Module -/

inductive AIDifficulty where
  | easy | medium | hard
deriving DecidableEq, Repr

inductive AIAction where
  | play | draw | call_uno
deriving DecidableEq, Repr

structure AIDecision where
  action : AIAction
  card : Option Card
  cards : Option (List Card)
  selectedColor : Option CardColor
deriving DecidableEq, Repr

/-- The decision `{ action: 'draw' }`. -/
def drawDecision : AIDecision :=
  { action := .draw, card := none, cards := none, selectedColor := none }

/-- The AI module's `getNextPlayer(state)`. -/
def getNextPlayer (s : GameState) : Option Player :=
  s.players.get? (stepIndex s.currentPlayerIndex s.direction s.players.length)

/-- The AI module's own `isDrawCard` (a membership test in the source). -/
def aiIsDrawCard (t : CardType) : Bool :=
  t ∈ ([.draw2, .draw4, .draw6, .draw10, .wild_draw2, .wild_draw4, .wild_draw_color] :
    List CardType)

/-- The AI module's own `getDrawCount` (`counts[type] || 0`). -/
def aiGetDrawCount : CardType → Nat
  | .draw2 => 2
  | .wild_draw2 => 2
  | .draw4 => 4
  | .wild_draw4 => 4
  | .draw6 => 6
  | .wild_draw_color => 4
  | .draw10 => 10
  | _ => 0

/-- `getCardPriority(card)`. -/
def getCardPriority (card : Card) : Nat :=
  let typePriority : Nat :=
    match card.type with
    | .draw10 => 100
    | .draw6 => 90
    | .wild_draw4 => 85
    | .draw4 => 80
    | .wild_draw_color => 75
    | .wild_draw2 => 70
    | .draw2 => 65
    | .skip_everyone => 60
    | .skip => 55
    | .reverse_everyone => 50
    | .reverse => 45
    | .discard_all => 40
    | .color_roulette => 35
    | .number => 30
    | .wild => 20
  match card.type, card.value with
  | .number, some v => typePriority + v
  | _, _ => typePriority

/-- `countColors(cards)` as the total count-per-color map it builds. -/
def countColors (cards : List Card) (c : CardColor) : Nat :=
  (cards.filter fun card => card.color = c).length

/-- `.sort((a, b) => f(b) - f(a))`: a stable descending sort by `f`. -/
def sortDescBy (f : Card → Nat) (l : List Card) : List Card :=
  l.mergeSort fun a b => f b ≤ f a

/-- `selectBestColor(cards)` (random fallback when no colored card is held). -/
def selectBestColor (rnd : Nat) (cards : List Card) : CardColor :=
  let best := ([CardColor.red, .blue, .green, .yellow] : List CardColor).foldl
    (fun acc color =>
      if acc.2 < countColors cards color then (color, countColors cards color) else acc)
    (CardColor.red, 0)
  if best.2 = 0 then
    (([CardColor.red, .blue, .green, .yellow] : List CardColor).get? (rnd % 4)).getD .red
  else best.1

/-- `selectMediumDifficulty(playableCards, state)`; `none` models the
`undefined` that the final `playableCards[0]` yields on an empty list. -/
def selectMediumDifficulty (playableCards : List Card) (s : GameState) : Option Card :=
  let nextPlayer := getNextPlayer s
  let shouldBeAggressive : Bool :=
    match nextPlayer with
    | some np => np.cards.length ≤ 3
    | none => false
  let aggressive : Option Card :=
    if shouldBeAggressive then
      let aggDraw := playableCards.filter fun c => aiIsDrawCard c.type
      if 0 < aggDraw.length then (sortDescBy (fun c => aiGetDrawCount c.type) aggDraw).head?
      else
        let skipReverse := playableCards.filter fun c =>
          c.type ∈ ([.skip, .reverse, .skip_everyone, .reverse_everyone] : List CardType)
        if 0 < skipReverse.length then skipReverse.head?
        else none
    else none
  match aggressive with
  | some c => some c
  | none =>
    let nonWildCards := playableCards.filter fun c => c.color ≠ CardColor.wild
    if 0 < nonWildCards.length then (sortDescBy getCardPriority nonWildCards).head?
    else playableCards.head?

/-- `selectHardDifficulty(playableCards, state, player)`. -/
def selectHardDifficulty (playableCards : List Card) (s : GameState) (player : Player) :
    Option Card :=
  let nextPlayer := getNextPlayer s
  let disrupt : Option Card :=
    match nextPlayer with
    | some np =>
      if np.cards.length ≤ 2 then
        let hdDraw := playableCards.filter fun c => aiIsDrawCard c.type
        if 0 < hdDraw.length then (sortDescBy (fun c => aiGetDrawCount c.type) hdDraw).head?
        else
          let skips := playableCards.filter fun c =>
            c.type ∈ ([.skip, .skip_everyone] : List CardType)
          if 0 < skips.length then skips.head?
          else none
      else none
    | none => none
  match disrupt with
  | some c => some c
  | none =>
    let entries := ([CardColor.red, .blue, .green, .yellow, .wild] : List CardColor).map
      fun c => (c, countColors player.cards c)
    let nonWildEntries := entries.filter fun e => e.1 ≠ CardColor.wild
    let dominantColor := (nonWildEntries.mergeSort fun a b => b.2 ≤ a.2).head?.map Prod.fst
    let dominantPick : Option Card :=
      match dominantColor with
      | some dc =>
        let dominantColorCards := playableCards.filter fun c => c.color = dc
        if 0 < dominantColorCards.length then
          (sortDescBy getCardPriority dominantColorCards).head?
        else none
      | none => none
    match dominantPick with
    | some c => some c
    | none =>
      let nonWildCards := playableCards.filter fun c => c.color ≠ CardColor.wild
      if 0 < nonWildCards.length then (sortDescBy getCardPriority nonWildCards).head?
      else
        let wilds := playableCards.filter fun c => c.color = CardColor.wild
        let regularWilds := wilds.filter fun c => c.type = CardType.wild
        if 0 < regularWilds.length then regularWilds.head?
        else playableCards.head?

/-- `selectCardToPlay(state, player, playableCards, difficulty)`; `rnd` models
the `Math.random()` draws of the easy tier and of `selectBestColor`. -/
def selectCardToPlay (rnd : Nat) (s : GameState) (player : Player)
    (playableCards : List Card) (difficulty : AIDifficulty) : Option AIDecision :=
  let discardAllCards := playableCards.filter fun c => c.type = CardType.discard_all
  let discardAllPick : Option AIDecision :=
    if 0 < discardAllCards.length ∧ difficulty ≠ .easy then
      let color := s.currentColor
      let matchingCards := player.cards.filter fun c => c.color = color
      if 3 ≤ matchingCards.length then
        discardAllCards.head?.map fun c =>
          { action := .play, card := some c, cards := some matchingCards,
            selectedColor := some color }
      else none
    else none
  match discardAllPick with
  | some d => some d
  | none =>
    let selectedCard : Option Card :=
      match difficulty with
      | .easy => playableCards.get? (rnd % playableCards.length)
      | .medium => selectMediumDifficulty playableCards s
      | .hard => selectHardDifficulty playableCards s player
    match selectedCard with
    | none => none
    | some c =>
      let chosenColor : Option CardColor :=
        if c.color = CardColor.wild then some (selectBestColor rnd player.cards) else none
      some { action := .play, card := some c, cards := none, selectedColor := chosenColor }

/-- `makeAIDecision(state, playerId, difficulty)`. -/
def makeAIDecision (rnd : Nat) (s : GameState) (playerId : String)
    (difficulty : AIDifficulty) : Option AIDecision :=
  match s.players.find? (fun p => p.id = playerId) with
  | none => some drawDecision
  | some player =>
    match getPlayableCards s playerId with
    | none => none
    | some playableCards =>
      if playableCards.length = 0 then some drawDecision
      else if player.cards.length = 2 ∧ 0 < playableCards.length then
        (selectCardToPlay rnd s player playableCards difficulty).map
          fun d => { d with action := .call_uno }
      else selectCardToPlay rnd s player playableCards difficulty
/-! ### C1 — deck composition -/

set_option maxRecDepth 40000 in
/-- C1 (counterexample): `createDeck()` does not produce 168 cards: the
enumerated per-type/per-color multiplicities of the source sum to 130. -/
theorem c1_counterexample : ¬ ((createDeck fun _ => "u").length = 168) := by
  decide

set_option maxRecDepth 40000 in
/-- C1 (amended): every call to `createDeck()` returns a deck of exactly 130
cards whose multiset of (type, color, value) matches the per-type/per-color
multiplicities of the source (per color: one 0, two each of 1–9, two each of
skip/reverse/draw2, one each of draw6/skip_everyone/discard_all; colorless:
4 wild, 4 wild_draw4, 2 wild_draw2, 2 wild_draw_color, 2 draw10,
2 color_roulette, 2 reverse_everyone), independent of how often it is called
(the result is a function of the identifier stream alone). -/
theorem c1_deck_composition (idGen : Nat → String) :
    (createDeck idGen).length = 130 ∧
    (∀ color ∈ COLORS,
      countKind (createDeck idGen) .number color (some 0) = 1 ∧
      (∀ v, v < 10 → 0 < v → countKind (createDeck idGen) .number color (some v) = 2) ∧
      countKind (createDeck idGen) .skip color none = 2 ∧
      countKind (createDeck idGen) .reverse color none = 2 ∧
      countKind (createDeck idGen) .draw2 color none = 2 ∧
      countKind (createDeck idGen) .draw6 color none = 1 ∧
      countKind (createDeck idGen) .skip_everyone color none = 1 ∧
      countKind (createDeck idGen) .discard_all color none = 1) ∧
    countKind (createDeck idGen) .wild .wild none = 4 ∧
    countKind (createDeck idGen) .wild_draw4 .wild none = 4 ∧
    countKind (createDeck idGen) .wild_draw2 .wild none = 2 ∧
    countKind (createDeck idGen) .wild_draw_color .wild none = 2 ∧
    countKind (createDeck idGen) .draw10 .wild none = 2 ∧
    countKind (createDeck idGen) .color_roulette .wild none = 2 ∧
    countKind (createDeck idGen) .reverse_everyone .wild none = 2 := by
  have hmap := map_kindOf_createDeck idGen
  have hlen := length_createDeck idGen
  unfold countKind
  rw [hmap, hlen]
  decide

set_option maxRecDepth 40000 in
/-- C1 (witness): the amended composition at a concrete identifier stream. -/
theorem c1_witness :
    (createDeck fun _ => "u").length = 130 ∧
    countKind (createDeck fun _ => "u") .number .red (some 0) = 1 ∧
    countKind (createDeck fun _ => "u") .number .red (some 5) = 2 :=
  ⟨(c1_deck_composition fun _ => "u").1,
    ((c1_deck_composition fun _ => "u").2.1 .red (by decide)).1,
    ((c1_deck_composition fun _ => "u").2.1 .red (by decide)).2.1 5 (by decide) (by decide)⟩
/-! ### Concrete fixtures for counterexamples and witnesses -/

/-- A player fixture. -/
def mkPlayer (pid : String) (cards : List Card) : Player :=
  { id := pid, name := pid, cards := cards, isAI := false, isHost := false,
    isConnected := true, hasCalledUno := false }

/-- A state fixture with the fields no claim varies fixed. -/
def mkState (players : List Player) (idx : Nat) (drawPile discardPile : List Card)
    (color : CardColor) (pendCount : Nat) (pendType : Option CardType) : GameState :=
  { id := "g", status := .playing, players := players, currentPlayerIndex := idx,
    direction := 1, drawPile := drawPile, discardPile := discardPile,
    currentColor := color, pendingDrawCount := pendCount, pendingDrawType := pendType,
    winnerId := none, hostId := "h", roomCode := "ROOM", maxPlayers := 4,
    isPrivate := false }

/-- A number-card fixture. -/
def numCard (cid : String) (color : CardColor) (v : Nat) : Card :=
  { id := cid, type := .number, color := color, value := some v }

/-! ### C3 — legality under a pending draw -/

/-- C3 (counterexample): with a pending draw active but an empty discard pile,
`canPlayCard` accepts a plain number card (the empty-pile early return comes
before the stacking check), so a non-draw card is not illegal there. -/
theorem c3_counterexample :
    canPlayCard (mkState [mkPlayer "a" []] 0 [] [] .red 1 (some .draw2))
      (numCard "n5" .red 5) "a" = some true ∧
    ¬ ((numCard "n5" .red 5).type ∈ drawTypes) := by
  decide

/-- C3 (amended): in every state with a non-empty discard pile, a pending draw
(`pendingDrawCount > 0`, `pendingDrawType` a draw type) and the current player
acting, `canPlayCard` returns true iff the card is a draw-type card whose
magnitude is at least the pending type's magnitude, with the magnitude table
draw2/wild_draw2 = 2, draw4/wild_draw4/wild_draw_color = 4, draw6 = 6,
draw10 = 10; every non-draw card is illegal. -/
theorem c3_pending_stack_iff (s : GameState) (card : Card) (playerId : String)
    (cp : Player) (pt : CardType)
    (hdisc : s.discardPile ≠ [])
    (hcp : s.players.get? s.currentPlayerIndex = some cp)
    (hid : cp.id = playerId)
    (hcount : 0 < s.pendingDrawCount)
    (hpt : s.pendingDrawType = some pt)
    (hptDraw : pt ∈ drawTypes) :
    (canPlayCard s card playerId = some true ↔
      card.type ∈ drawTypes ∧ drawValue pt ≤ drawValue card.type) ∧
    drawValue .draw2 = 2 ∧ drawValue .wild_draw2 = 2 ∧ drawValue .draw4 = 4 ∧
    drawValue .wild_draw4 = 4 ∧ drawValue .wild_draw_color = 4 ∧
    drawValue .draw6 = 6 ∧ drawValue .draw10 = 10 := by
  refine ⟨?_, rfl, rfl, rfl, rfl, rfl, rfl, rfl⟩
  unfold canPlayCard getTopCard
  cases htop : s.discardPile.getLast? with
  | none =>
    exact absurd (List.getLast?_eq_none_iff.mp htop) hdisc
  | some topCard =>
    rw [hcp, hpt]
    simp only [hid, ne_eq, not_true_eq_false, if_false, hcount, if_pos]
    unfold canStackDrawCard
    by_cases hmem : card.type ∈ drawTypes
    · simp [hmem]
    · simp [hmem]

/-- C3 (witness): a red draw6 may stack on a pending draw2. -/
theorem c3_witness :
    canPlayCard (mkState [mkPlayer "a" []] 0 [] [numCard "t" .red 7] .red 1 (some .draw2))
      { id := "d6", type := .draw6, color := .red, value := none } "a" = some true :=
  (c3_pending_stack_iff
      (mkState [mkPlayer "a" []] 0 [] [numCard "t" .red 7] .red 1 (some .draw2))
      { id := "d6", type := .draw6, color := .red, value := none } "a"
      (mkPlayer "a" []) .draw2 (by decide) (by decide) rfl (by decide) rfl
      (by decide)).1.mpr (by decide)

/-! ### C4 — legality for a non-current player -/

/-- C4 (counterexample): with an empty discard pile `canPlayCard` returns true
even for a player who is not the current player — the defensive empty-pile
case returns before the turn check. -/
theorem c4_counterexample :
    canPlayCard (mkState [mkPlayer "a" [], mkPlayer "b" []] 0 [] [] .red 0 none)
      (numCard "n5" .red 5) "b" = some true ∧
    ((mkState [mkPlayer "a" [], mkPlayer "b" []] 0 [] [] .red 0 none).players.get?
        (mkState [mkPlayer "a" [], mkPlayer "b" []] 0 [] [] .red 0 none).currentPlayerIndex).map
      Player.id ≠ some "b" := by
  decide

/-- C4 (amended): whenever the discard pile is non-empty, `canPlayCard`
returns false for every card and every `playerId` that differs from the
current player's id. -/
theorem c4_not_your_turn (s : GameState) (card : Card) (playerId : String)
    (cp : Player)
    (hdisc : s.discardPile ≠ [])
    (hcp : s.players.get? s.currentPlayerIndex = some cp)
    (hid : cp.id ≠ playerId) :
    canPlayCard s card playerId = some false := by
  unfold canPlayCard getTopCard
  cases htop : s.discardPile.getLast? with
  | none => exact absurd (List.getLast?_eq_none_iff.mp htop) hdisc
  | some topCard =>
    rw [hcp]
    simp [hid]

/-- C4 (witness): the amended statement at a concrete state. -/
theorem c4_witness :
    canPlayCard (mkState [mkPlayer "a" [], mkPlayer "b" []] 0 [] [numCard "t" .red 7] .red 0 none)
      (numCard "n5" .red 5) "b" = some false :=
  c4_not_your_turn
    (mkState [mkPlayer "a" [], mkPlayer "b" []] 0 [] [numCard "t" .red 7] .red 0 none)
    (numCard "n5" .red 5) "b" (mkPlayer "a" []) (by decide) (by decide) (by decide)
/-! ### C10 — playing a card that is not in the hand -/

/-- The conserved quantity of the card-conservation claims: all hand sizes
plus both pile sizes. -/
def totalCards (s : GameState) : Nat :=
  (s.players.map fun p => p.cards.length).sum + s.drawPile.length + s.discardPile.length

/-- A state whose current player "a" holds one red 1; the red 9 below is not
in any hand. -/
def ghostState : GameState :=
  mkState [mkPlayer "a" [numCard "h1" .red 1]] 0 [] [numCard "t" .red 7] .red 0 none

/-- A card foreign to every hand of `ghostState`, but legal on its discard. -/
def ghostCard : Card := numCard "zz" .red 9

/-- C10: `playCard` never checks hand membership: playing the foreign
`ghostCard` succeeds, the discard pile gains it, every hand is unchanged, and
the total number of cards in play grows by one. -/
theorem c10_ghost_card_play :
    (∀ p ∈ ghostState.players, ¬ ghostCard ∈ p.cards) ∧
    (playCard 0 ghostState "a" ghostCard none).isSome ∧
    (playCard 0 ghostState "a" ghostCard none).map GameState.discardPile
      = some (ghostState.discardPile ++ [ghostCard]) ∧
    (playCard 0 ghostState "a" ghostCard none).map (fun s => s.players.map Player.cards)
      = some (ghostState.players.map Player.cards) ∧
    (playCard 0 ghostState "a" ghostCard none).map totalCards
      = some (totalCards ghostState + 1) := by
  decide
/-! ### Field-preservation lemmas for `handleCardEffect` -/

theorem handleCardEffect_players (crRnd : Nat) (s : GameState) (card : Card)
    (pid : String) (col : Option CardColor) :
    (handleCardEffect crRnd s card pid col).players = s.players := by
  obtain ⟨cid, ct, cc, cv⟩ := card
  unfold handleCardEffect pendEffect
  cases ct <;> dsimp only <;> (try split) <;> rfl

theorem handleCardEffect_status (crRnd : Nat) (s : GameState) (card : Card)
    (pid : String) (col : Option CardColor) :
    (handleCardEffect crRnd s card pid col).status = s.status := by
  obtain ⟨cid, ct, cc, cv⟩ := card
  unfold handleCardEffect pendEffect
  cases ct <;> dsimp only <;> (try split) <;> rfl

theorem handleCardEffect_winnerId (crRnd : Nat) (s : GameState) (card : Card)
    (pid : String) (col : Option CardColor) :
    (handleCardEffect crRnd s card pid col).winnerId = s.winnerId := by
  obtain ⟨cid, ct, cc, cv⟩ := card
  unfold handleCardEffect pendEffect
  cases ct <;> dsimp only <;> (try split) <;> rfl

theorem handleCardEffect_discardPile (crRnd : Nat) (s : GameState) (card : Card)
    (pid : String) (col : Option CardColor) :
    (handleCardEffect crRnd s card pid col).discardPile = s.discardPile := by
  obtain ⟨cid, ct, cc, cv⟩ := card
  unfold handleCardEffect pendEffect
  cases ct <;> dsimp only <;> (try split) <;> rfl

theorem handleCardEffect_drawPile (crRnd : Nat) (s : GameState) (card : Card)
    (pid : String) (col : Option CardColor) :
    (handleCardEffect crRnd s card pid col).drawPile = s.drawPile := by
  obtain ⟨cid, ct, cc, cv⟩ := card
  unfold handleCardEffect pendEffect
  cases ct <;> dsimp only <;> (try split) <;> rfl
/-! ### C6 — reaching an empty hand ends the game -/

/-- C6: after a successful `playCard`, `playMultipleCards` or `playDiscardAll`
whose acting player (the seat the transition actually operated on) ends with
an empty hand, the resulting state is finished with that player as winner,
regardless of the played card's effect. -/
theorem c6_zero_hand_wins :
    (∀ (crRnd : Nat) (s : GameState) (playerId : String) (card : Card)
        (selectedColor : Option CardColor) (s' : GameState) (i : Nat) (p' : Player),
      playCard crRnd s playerId card selectedColor = some s' →
      findIndex (fun p => p.id = playerId) s.players = some i →
      s'.players.get? i = some p' → p'.cards = [] →
      s'.status = .finished ∧ s'.winnerId = some playerId) ∧
    (∀ (s : GameState) (playerId : String) (cards : List Card)
        (s' : GameState) (i : Nat) (p' : Player),
      playMultipleCards s playerId cards = some s' →
      findIndex (fun p => p.id = playerId) s.players = some i →
      s'.players.get? i = some p' → p'.cards = [] →
      s'.status = .finished ∧ s'.winnerId = some playerId) ∧
    (∀ (s : GameState) (playerId : String) (cards : List Card)
        (s' : GameState) (i : Nat) (p' : Player),
      playDiscardAll s playerId cards = some s' →
      findIndex (fun p => p.id = playerId) s.players = some i →
      s'.players.get? i = some p' → p'.cards = [] →
      s'.status = .finished ∧ s'.winnerId = some playerId) := by
  refine ⟨?_, ?_, ?_⟩
  · intro crRnd s playerId card selectedColor s' i p' h hfind hget hempty
    unfold playCard at h
    cases hc : canPlayCard s card playerId with
    | none => rw [hc] at h; exact absurd h (by simp)
    | some b =>
      cases b with
      | false => rw [hc] at h; exact absurd h (by simp)
      | true =>
        rw [hc, hfind] at h
        dsimp only at h
        cases hp : s.players.get? i with
        | none => rw [hp] at h; exact absurd h (by simp)
        | some player =>
          rw [hp] at h
          dsimp only at h
          by_cases hlen :
              (player.cards.filter fun c => ¬ (c.id = card.id)).length = 0
          · rw [if_pos hlen] at h
            have hs' := Option.some.inj h
            subst hs'
            exact ⟨rfl, rfl⟩
          · rw [if_neg hlen] at h
            have hs' := Option.some.inj h
            exfalso
            have hpl : s'.players.get? i =
                some { player with cards :=
                  player.cards.filter fun c => ¬ (c.id = card.id) } := by
              rw [← hs', handleCardEffect_players]
              dsimp only
              rw [get?_mapWithIdx, hp]
              simp
            rw [hget] at hpl
            have hpcards := congrArg Player.cards (Option.some.inj hpl)
            dsimp at hpcards
            rw [hempty] at hpcards
            exact hlen (by rw [← hpcards]; rfl)
  · intro s playerId cards s' i p' h hfind hget hempty
    unfold playMultipleCards at h
    cases hc : canPlayMultipleCards s cards playerId with
    | none => rw [hc] at h; exact absurd h (by simp)
    | some b =>
      cases b with
      | false => rw [hc] at h; exact absurd h (by simp)
      | true =>
        rw [hc, hfind] at h
        dsimp only at h
        cases hp : s.players.get? i with
        | none => rw [hp] at h; exact absurd h (by simp)
        | some player =>
          rw [hp] at h
          cases hl : (cards.mergeSort (playableLast s playerId)).getLast? with
          | none => rw [hl] at h; exact absurd h (by simp)
          | some lastCard =>
            rw [hl] at h
            dsimp only at h
            by_cases hlen :
                (player.cards.filter fun c => ¬ ((cards.map Card.id).contains c.id)).length = 0
            · rw [if_pos hlen] at h
              have hs' := Option.some.inj h
              subst hs'
              exact ⟨rfl, rfl⟩
            · rw [if_neg hlen] at h
              have hs' := Option.some.inj h
              exfalso
              have hpl : s'.players.get? i =
                  some { player with cards :=
                    player.cards.filter fun c => ¬ ((cards.map Card.id).contains c.id) } := by
                rw [← hs']
                dsimp only
                rw [get?_mapWithIdx, hp]
                simp
              rw [hget] at hpl
              have hpcards := congrArg Player.cards (Option.some.inj hpl)
              dsimp at hpcards
              rw [hempty] at hpcards
              exact hlen (by rw [← hpcards]; rfl)
  · intro s playerId cards s' i p' h hfind hget hempty
    unfold playDiscardAll at h
    split at h
    · exact absurd h (by simp)
    · split at h
      · exact absurd h (by simp)
      · rename_i firstCard hhd
        split at h
        · exact absurd h (by simp)
        · rename_i playerIndex hfi
          rw [hfind] at hfi
          have hii := Option.some.inj hfi
          subst hii
          split at h
          · exact absurd h (by simp)
          · rename_i player hp
            dsimp only at h
            split at h
            · exact absurd h (by simp)
            · split at h
              · exact absurd h (by simp)
              · split at h
                · rename_i hlen
                  have hs' := Option.some.inj h
                  subst hs'
                  exact ⟨rfl, rfl⟩
                · rename_i hlen
                  have hs' := Option.some.inj h
                  exfalso
                  have hpl : s'.players.get? i =
                      some { player with cards :=
                        player.cards.filter fun c => ¬ ((cards.map Card.id).contains c.id) } := by
                    rw [← hs']
                    dsimp only
                    rw [get?_mapWithIdx, hp]
                    simp
                  rw [hget] at hpl
                  have hpcards := congrArg Player.cards (Option.some.inj hpl)
                  dsimp at hpcards
                  rw [hempty] at hpcards
                  exact hlen (by rw [← hpcards]; rfl)
/-- Fixture: player "a" about to play their last card. -/
def w6State : GameState :=
  mkState [mkPlayer "a" [numCard "c1" .red 3], mkPlayer "b" [numCard "x" .blue 1]]
    0 [] [numCard "t" .red 7] .red 0 none

/-- The state `playCard` actually produces from `w6State`. -/
def w6Result : GameState :=
  (playCard 0 w6State "a" (numCard "c1" .red 3) none).getD w6State

/-- C6 (witness): emptying the hand finishes the game with that winner. -/
theorem c6_witness :
    playCard 0 w6State "a" (numCard "c1" .red 3) none = some w6Result ∧
    w6Result.status = .finished ∧ w6Result.winnerId = some "a" := by
  have h := c6_zero_hand_wins.1 0 w6State "a" (numCard "c1" .red 3) none w6Result 0
    (mkPlayer "a" []) (by decide) (by decide) (by decide) (by decide)
  exact ⟨by decide, h.1, h.2⟩
/-! ### C5 — `currentColor` stays a concrete color -/

/-- The new `currentColor` computed at the top of `handleCardEffect` is never
`wild` when the caller-supplied color is not `wild` and the old color was not
`wild` (a wild-colored card with no selected color keeps the old color; a
colored card installs its own color). -/
theorem resolved_ne_wild (cc : CardColor) (col : Option CardColor) (cur : CardColor)
    (hcol : ∀ c, col = some c → c ≠ CardColor.wild) (hs : cur ≠ CardColor.wild) :
    resolveColor cc col cur ≠ CardColor.wild := by
  unfold resolveColor
  split
  · cases col with
    | none => exact hs
    | some c => exact hcol c rfl
  · rename_i h
    exact h

theorem handleCardEffect_currentColor_ne_wild (crRnd : Nat) (s : GameState)
    (card : Card) (pid : String) (col : Option CardColor)
    (hcol : ∀ c, col = some c → c ≠ CardColor.wild)
    (hs : s.currentColor ≠ CardColor.wild) :
    (handleCardEffect crRnd s card pid col).currentColor ≠ CardColor.wild := by
  have hroulette : (COLORS.get? (crRnd % COLORS.length)).getD .red ≠ CardColor.wild := by
    rcases hm : COLORS.get? (crRnd % COLORS.length) with _ | c
    · decide
    · have hmem : c ∈ COLORS := List.get?_mem hm
      revert hmem
      cases c <;> decide
  obtain ⟨cid, ct, cc, cv⟩ := card
  have hbase := resolved_ne_wild cc col s.currentColor hcol hs
  unfold handleCardEffect pendEffect
  cases ct <;> dsimp only <;>
    first
      | exact hroulette
      | exact hbase
      | (split <;> exact hbase)

theorem addPlayer_currentColor (s s' : GameState) (pid nm : String) (ai : Bool)
    (h : addPlayer s pid nm ai = some s') : s'.currentColor = s.currentColor := by
  unfold addPlayer at h
  split at h
  · exact absurd h (by simp)
  · split at h
    · exact absurd h (by simp)
    · have := Option.some.inj h
      subst this
      rfl

theorem initializeGame_currentColor (rnd : Nat → Nat) (idGen : Nat → String)
    (gameId hostId hostName roomCode : String) (maxPlayers : Nat) (s0 : GameState)
    (h : initializeGame rnd idGen gameId hostId hostName roomCode maxPlayers = some s0) :
    s0.currentColor ≠ CardColor.wild := by
  unfold initializeGame at h
  dsimp only at h
  split at h
  · exact absurd h (by simp)
  · rename_i startingCard hsc
    have := Option.some.inj h
    subst this
    dsimp only
    split
    · decide
    · rename_i hwild
      exact hwild

theorem startGame_currentColor (rnd : Nat → Nat) (idGen : Nat → String)
    (s s' : GameState) (h : startGame rnd idGen s = some s') :
    s'.currentColor ≠ CardColor.wild := by
  unfold startGame at h
  split at h
  · exact absurd h (by simp)
  · split at h
    · exact absurd h (by simp)
    · dsimp only at h
      split at h
      · exact absurd h (by simp)
      · rename_i startingCard hsc
        have := Option.some.inj h
        subst this
        dsimp only
        split
        · decide
        · rename_i hwild
          exact hwild

theorem eliminatePlayer_currentColor (eRnd : Nat → Nat) (s : GameState) (pid : String) :
    (eliminatePlayer eRnd s pid).currentColor = s.currentColor := by
  unfold eliminatePlayer
  split
  · rfl
  · split
    · rfl
    · dsimp only
      split <;> rfl

theorem drawCards_currentColor (rnd : Nat → Nat → Nat) (idGen : Nat → Nat → String)
    (eRnd : Nat → Nat) (s s' : GameState) (pid : String) (count : Nat)
    (h : drawCards rnd idGen eRnd s pid count = some s') :
    s'.currentColor = s.currentColor := by
  unfold drawCards at h
  split at h
  · exact absurd h (by simp)
  · dsimp only at h
    split at h
    · exact absurd h (by simp)
    · split at h
      · have := Option.some.inj h
        subst this
        rw [eliminatePlayer_currentColor]
      · have := Option.some.inj h
        subst this
        rfl

theorem callUno_currentColor (s s' : GameState) (pid : String)
    (h : callUno s pid = some s') : s'.currentColor = s.currentColor := by
  unfold callUno at h
  split at h
  · exact absurd h (by simp)
  · split at h
    · exact absurd h (by simp)
    · split at h
      · exact absurd h (by simp)
      · have := Option.some.inj h
        subst this
        rfl

theorem challengeUno_currentColor (rnd : Nat → Nat → Nat) (idGen : Nat → Nat → String)
    (eRnd : Nat → Nat) (s s' : GameState) (challengerId targetId : String)
    (h : challengeUno rnd idGen eRnd s challengerId targetId = some s') :
    s'.currentColor = s.currentColor := by
  unfold challengeUno at h
  split at h
  · exact absurd h (by simp)
  · split at h
    · exact absurd h (by simp)
    · split at h
      · exact absurd h (by simp)
      · exact drawCards_currentColor _ _ _ _ _ _ _ h

theorem processDrawPenalty_currentColor (rnd : Nat → Nat → Nat)
    (idGen : Nat → Nat → String) (eRnd : Nat → Nat) (s s' : GameState)
    (h : processDrawPenalty rnd idGen eRnd s = some s') :
    s'.currentColor = s.currentColor := by
  unfold processDrawPenalty at h
  split at h
  · have := Option.some.inj h
    subst this
    rfl
  · split at h
    · exact absurd h (by simp)
    · split at h
      · exact absurd h (by simp)
      · rename_i d hd
        have := Option.some.inj h
        subst this
        show d.currentColor = s.currentColor
        exact drawCards_currentColor _ _ _ _ _ _ _ hd

theorem playDiscardAll_currentColor (s s' : GameState) (pid : String)
    (cards : List Card) (h : playDiscardAll s pid cards = some s') :
    s'.currentColor = s.currentColor := by
  unfold playDiscardAll at h
  split at h
  · exact absurd h (by simp)
  · split at h
    · exact absurd h (by simp)
    · split at h
      · exact absurd h (by simp)
      · split at h
        · exact absurd h (by simp)
        · dsimp only at h
          split at h
          · exact absurd h (by simp)
          · split at h
            · exact absurd h (by simp)
            · split at h <;>
                (have hv := Option.some.inj h; subst hv; rfl)

theorem playCard_currentColor (crRnd : Nat) (s s' : GameState) (pid : String)
    (card : Card) (col : Option CardColor)
    (h : playCard crRnd s pid card col = some s')
    (hcol : ∀ c, col = some c → c ≠ CardColor.wild)
    (hs : s.currentColor ≠ CardColor.wild) :
    s'.currentColor ≠ CardColor.wild := by
  unfold playCard at h
  split at h
  · exact absurd h (by simp)
  · exact absurd h (by simp)
  · split at h
    · exact absurd h (by simp)
    · split at h
      · exact absurd h (by simp)
      · rename_i player hp
        dsimp only at h
        split at h <;>
          (have hv := Option.some.inj h; subst hv;
           exact handleCardEffect_currentColor_ne_wild _ _ _ _ _ hcol hs)

theorem playMultipleCards_currentColor (s s' : GameState) (pid : String)
    (cards : List Card) (h : playMultipleCards s pid cards = some s')
    (hs : s.currentColor ≠ CardColor.wild) :
    s'.currentColor ≠ CardColor.wild := by
  unfold playMultipleCards at h
  split at h
  · exact absurd h (by simp)
  · exact absurd h (by simp)
  · split at h
    · exact absurd h (by simp)
    · split at h
      · exact absurd h (by simp)
      · dsimp only at h
        split at h
        · exact absurd h (by simp)
        · rename_i lastCard hl
          split at h <;>
            (have hv := Option.some.inj h; subst hv; dsimp only; split)
          · exact hs
          · rename_i hw
            exact hw
          · exact hs
          · rename_i hw
            exact hw
/-- One Rules Engine transition, with every caller-supplied `selectedColor`
restricted to a concrete (non-wild) color — the restriction the counterexample
below forces. -/
inductive GameStep : GameState → GameState → Prop where
  | addPlayer (s s' : GameState) (pid nm : String) (ai : Bool)
      (h : addPlayer s pid nm ai = some s') : GameStep s s'
  | startGame (rnd : Nat → Nat) (idGen : Nat → String) (s s' : GameState)
      (h : startGame rnd idGen s = some s') : GameStep s s'
  | playCard (crRnd : Nat) (s s' : GameState) (pid : String) (card : Card)
      (col : Option CardColor) (hcol : ∀ c, col = some c → c ≠ CardColor.wild)
      (h : playCard crRnd s pid card col = some s') : GameStep s s'
  | playMultipleCards (s s' : GameState) (pid : String) (cards : List Card)
      (h : playMultipleCards s pid cards = some s') : GameStep s s'
  | playDiscardAll (s s' : GameState) (pid : String) (cards : List Card)
      (h : playDiscardAll s pid cards = some s') : GameStep s s'
  | drawCards (rnd : Nat → Nat → Nat) (idGen : Nat → Nat → String) (eRnd : Nat → Nat)
      (s s' : GameState) (pid : String) (count : Nat)
      (h : drawCards rnd idGen eRnd s pid count = some s') : GameStep s s'
  | processDrawPenalty (rnd : Nat → Nat → Nat) (idGen : Nat → Nat → String)
      (eRnd : Nat → Nat) (s s' : GameState)
      (h : processDrawPenalty rnd idGen eRnd s = some s') : GameStep s s'
  | callUno (s s' : GameState) (pid : String)
      (h : callUno s pid = some s') : GameStep s s'
  | challengeUno (rnd : Nat → Nat → Nat) (idGen : Nat → Nat → String)
      (eRnd : Nat → Nat) (s s' : GameState) (challengerId targetId : String)
      (h : challengeUno rnd idGen eRnd s challengerId targetId = some s') : GameStep s s'

theorem GameStep_currentColor_ne_wild (a b : GameState) (hstep : GameStep a b)
    (ha : a.currentColor ≠ CardColor.wild) : b.currentColor ≠ CardColor.wild := by
  cases hstep with
  | addPlayer s s' pid nm ai h => rw [addPlayer_currentColor a b pid nm ai h]; exact ha
  | startGame rnd idGen s s' h => exact startGame_currentColor rnd idGen a b h
  | playCard crRnd s s' pid card col hcol h =>
    exact playCard_currentColor crRnd a b pid card col h hcol ha
  | playMultipleCards s s' pid cards h =>
    exact playMultipleCards_currentColor a b pid cards h ha
  | playDiscardAll s s' pid cards h =>
    rw [playDiscardAll_currentColor a b pid cards h]; exact ha
  | drawCards rnd idGen eRnd s s' pid count h =>
    rw [drawCards_currentColor rnd idGen eRnd a b pid count h]; exact ha
  | processDrawPenalty rnd idGen eRnd s s' h =>
    rw [processDrawPenalty_currentColor rnd idGen eRnd a b h]; exact ha
  | callUno s s' pid h => rw [callUno_currentColor a b pid h]; exact ha
  | challengeUno rnd idGen eRnd s s' cid tid h =>
    rw [challengeUno_currentColor rnd idGen eRnd a b cid tid h]; exact ha

/-- A wild-colored card fixture. -/
def wildCard (cid : String) : Card :=
  { id := cid, type := .wild, color := .wild, value := none }

/-- The state `initializeGame` actually produces for fixed streams. -/
def c5InitState : GameState :=
  (initializeGame (fun _ => 0) (fun _ => "u") "g" "h" "host" "RM" 4).getD
    (mkState [] 0 [] [] .red 0 none)

set_option maxRecDepth 200000 in
/-- C5 (counterexample): from the freshly initialized game, the host playing a
wild card with the caller-supplied `selectedColor = 'wild'` drives
`currentColor` to `wild` — the claim fails for that `selectedColor`. -/
theorem c5_counterexample :
    initializeGame (fun _ => 0) (fun _ => "u") "g" "h" "host" "RM" 4 = some c5InitState ∧
    (playCard 0 c5InitState "h" (wildCard "w") (some CardColor.wild)).map
      GameState.currentColor = some CardColor.wild := by
  constructor
  · decide
  · decide

/-- C5 (amended): in every state produced by `initializeGame` or by any
sequence of Rules Engine transitions in which each caller-supplied
`selectedColor` is one of the four concrete colors, `currentColor` is one of
red, blue, green, yellow — never wild. -/
theorem c5_color_concrete (rnd : Nat → Nat) (idGen : Nat → String)
    (gameId hostId hostName roomCode : String) (maxPlayers : Nat)
    (s0 s : GameState)
    (hinit : initializeGame rnd idGen gameId hostId hostName roomCode maxPlayers = some s0)
    (hreach : Relation.ReflTransGen GameStep s0 s) :
    s.currentColor ∈ ([.red, .blue, .green, .yellow] : List CardColor) := by
  have hne : s.currentColor ≠ CardColor.wild := by
    induction hreach with
    | refl =>
      exact initializeGame_currentColor rnd idGen gameId hostId hostName roomCode
        maxPlayers s0 hinit
    | tail hr hstep ih => exact GameStep_currentColor_ne_wild _ _ hstep ih
  revert hne
  cases s.currentColor <;> decide

set_option maxRecDepth 200000 in
/-- C5 (witness): the freshly initialized state's color is concrete. -/
theorem c5_witness :
    c5InitState.currentColor ∈ ([.red, .blue, .green, .yellow] : List CardColor) :=
  c5_color_concrete (fun _ => 0) (fun _ => "u") "g" "h" "host" "RM" 4 c5InitState
    c5InitState (by decide) Relation.ReflTransGen.refl
/-! ### C8 — resolving the pending draw penalty -/

theorem drawStep_drawn_le (r : Nat → Nat) (g : Nat → String)
    (st : List Card × List Card × List Card) :
    (drawStep r g st).2.2.length ≤ st.2.2.length + 1 := by
  unfold drawStep
  dsimp only
  split <;> simp

theorem drawLoop_drawn_le (rnd : Nat → Nat → Nat) (idGen : Nat → Nat → String)
    (count : Nat) (init : List Card × List Card × List Card) :
    (drawLoop rnd idGen count init).2.2.length ≤ init.2.2.length + count := by
  induction count with
  | zero => simp [drawLoop]
  | succ n ih =>
    unfold drawLoop at ih ⊢
    rw [List.range_succ, List.foldl_append]
    have h1 := drawStep_drawn_le (rnd n) (idGen n)
      ((List.range n).foldl (fun st i => drawStep (rnd i) (idGen i) st) init)
    simp only [List.foldl_cons, List.foldl_nil]
    omega
/-- What `drawCards` returns when no elimination fires: the drawing seat's
hand gains the drawn cards (and loses its declaration flag), the piles are
replaced by the loop results. -/
def drawResultState (rnd : Nat → Nat → Nat) (idGen : Nat → Nat → String)
    (s : GameState) (pi : Nat) (count : Nat) : GameState :=
  let res := drawLoop rnd idGen count (s.drawPile, s.discardPile, [])
  { s with
    players := mapWithIdx
      (fun idx p => if idx = pi then
          { p with cards := p.cards ++ res.2.2, hasCalledUno := false }
        else p) 0 s.players,
    drawPile := res.1, discardPile := res.2.1 }

theorem findIndex_of_nodup (f : α → String) (l : List α) (i : Nat) (a : α)
    (hnodup : (l.map f).Nodup) (hget : l.get? i = some a) :
    findIndex (fun x => f x = f a) l = some i := by
  induction l generalizing i with
  | nil => simp at hget
  | cons b bs ih =>
    cases i with
    | zero =>
      have hb := Option.some.inj hget
      subst hb
      simp [findIndex]
    | succ j =>
      simp only [List.get?_cons_succ] at hget
      have hmem : a ∈ bs := List.get?_mem hget
      have hfmem : f a ∈ bs.map f := List.mem_map_of_mem f hmem
      have hbne : f b ≠ f a := by
        intro hfeq
        rw [List.map_cons, List.nodup_cons] at hnodup
        exact hnodup.1 (hfeq ▸ hfmem)
      simp only [findIndex, hbne, if_neg, decide_eq_true_eq, Bool.false_eq_true,
        not_false_iff]
      rw [ih j (by rw [List.map_cons, List.nodup_cons] at hnodup; exact hnodup.2) hget]
      rfl

theorem drawCards_no_elim (rnd : Nat → Nat → Nat) (idGen : Nat → Nat → String)
    (eRnd : Nat → Nat) (s : GameState) (pid : String) (count pi : Nat)
    (player : Player)
    (hfind : findIndex (fun p => p.id = pid) s.players = some pi)
    (hget : s.players.get? pi = some player)
    (hsize : player.cards.length + count < 25) :
    drawCards rnd idGen eRnd s pid count =
      some (drawResultState rnd idGen s pi count) := by
  unfold drawCards
  rw [hfind]
  dsimp only
  rw [get?_mapWithIdx, hget]
  simp only [Option.map_some', Nat.zero_add, if_pos]
  have hdrawn := drawLoop_drawn_le rnd idGen count (s.drawPile, s.discardPile, [])
  simp only [List.length_nil, Nat.zero_add] at hdrawn
  rw [if_neg (by simp only [List.length_append]; omega)]
  rfl

theorem getNextPlayerIndex_one (t : GameState) :
    getNextPlayerIndex t 1 = stepIndex t.currentPlayerIndex t.direction t.players.length := by
  show List.foldl _ _ (List.range 1) = _
  rw [List.range_succ, List.range_zero, List.nil_append, List.foldl_cons, List.foldl_nil]

/-- C8 (amended): with a pending draw whose resolution leaves the current
player below the elimination threshold, `processDrawPenalty` applies the whole
pending count in one `drawCards` call and the result is exactly that state
with the pending fields cleared and the turn advanced one step in the current
direction. -/
theorem c8_penalty_resolution (rnd : Nat → Nat → Nat) (idGen : Nat → Nat → String)
    (eRnd : Nat → Nat) (s : GameState) (cp : Player)
    (hpend : 0 < s.pendingDrawCount)
    (hcp : s.players.get? s.currentPlayerIndex = some cp)
    (hnodup : (s.players.map Player.id).Nodup)
    (hsize : cp.cards.length + s.pendingDrawCount < 25) :
    ∃ d, drawCards rnd idGen eRnd s cp.id s.pendingDrawCount = some d ∧
      processDrawPenalty rnd idGen eRnd s =
        some { d with
          pendingDrawCount := 0, pendingDrawType := none,
          currentPlayerIndex :=
            stepIndex s.currentPlayerIndex s.direction s.players.length } := by
  have hfind : findIndex (fun p => p.id = cp.id) s.players = some s.currentPlayerIndex :=
    findIndex_of_nodup Player.id s.players s.currentPlayerIndex cp hnodup hcp
  have hdc := drawCards_no_elim rnd idGen eRnd s cp.id s.pendingDrawCount
    s.currentPlayerIndex cp hfind hcp hsize
  refine ⟨drawResultState rnd idGen s s.currentPlayerIndex s.pendingDrawCount, hdc, ?_⟩
  unfold processDrawPenalty
  rw [if_neg (by omega), hcp]
  dsimp only
  rw [hdc]
  dsimp only
  have hidx : getNextPlayerIndex (drawResultState rnd idGen s s.currentPlayerIndex
      s.pendingDrawCount) 1 = stepIndex s.currentPlayerIndex s.direction s.players.length := by
    rw [getNextPlayerIndex_one]
    unfold drawResultState
    dsimp only
    rw [length_mapWithIdx]
  rw [hidx]
/-- A 24-card hand: one more draw eliminates its holder. -/
def bigHand : List Card :=
  (List.range 24).map fun i => numCard (toString i) .red 1

/-- Fixture for the C8 counterexample: resolving the pending draw pushes the
current player to 25 cards. -/
def c8CxState : GameState :=
  mkState [mkPlayer "a" bigHand, mkPlayer "b" [numCard "bb" .blue 2]] 0
    [numCard "d1" .green 3] [numCard "t" .red 7] .red 1 (some .draw2)

set_option maxRecDepth 200000 in
/-- C8 (counterexample): when the penalty draw eliminates the current player,
the resulting `currentPlayerIndex` (0, over the shrunk roster) is not the
claimed one-step advance from the current seat (which is 1). -/
theorem c8_counterexample :
    (processDrawPenalty (fun _ _ => 0) (fun _ _ => "x") (fun _ => 0) c8CxState).map
      GameState.currentPlayerIndex = some 0 ∧
    (processDrawPenalty (fun _ _ => 0) (fun _ _ => "x") (fun _ => 0) c8CxState).map
      (fun t => t.players.length) = some 1 ∧
    stepIndex c8CxState.currentPlayerIndex c8CxState.direction
      c8CxState.players.length = 1 := by
  refine ⟨by decide, by decide, by decide⟩

/-- Fixture for the C8 witness: a harmless 2-card penalty. -/
def c8WState : GameState :=
  mkState [mkPlayer "a" [numCard "h1" .red 1], mkPlayer "b" [numCard "bb" .blue 2]] 0
    [numCard "d1" .green 3, numCard "d2" .green 4] [numCard "t" .red 7] .red 2 (some .draw2)

/-- C8 (witness): the amended resolution at a concrete state. -/
theorem c8_witness :
    ∃ d, drawCards (fun _ _ => 0) (fun _ _ => "x") (fun _ => 0) c8WState
        (mkPlayer "a" [numCard "h1" .red 1]).id c8WState.pendingDrawCount = some d ∧
      processDrawPenalty (fun _ _ => 0) (fun _ _ => "x") (fun _ => 0) c8WState =
        some { d with
          pendingDrawCount := 0, pendingDrawType := none,
          currentPlayerIndex := stepIndex c8WState.currentPlayerIndex c8WState.direction
            c8WState.players.length } :=
  c8_penalty_resolution (fun _ _ => 0) (fun _ _ => "x") (fun _ => 0) c8WState
    (mkPlayer "a" [numCard "h1" .red 1]) (by decide) (by decide) (by decide) (by decide)
/-! ### C7 — forced elimination at 25 cards -/

theorem countP_f_eq_one (f : α → String) (l : List α) (i : Nat) (a : α)
    (hnodup : (l.map f).Nodup) (hget : l.get? i = some a) :
    l.countP (fun x => f x = f a) = 1 := by
  induction l generalizing i with
  | nil => simp at hget
  | cons b bs ih =>
    rw [List.map_cons, List.nodup_cons] at hnodup
    cases i with
    | zero =>
      have hb := Option.some.inj hget
      subst hb
      rw [List.countP_cons]
      have hz : bs.countP (fun x => f x = f b) = 0 := by
        rw [List.countP_eq_zero]
        intro x hx
        simp only [decide_eq_true_eq]
        intro hfx
        exact hnodup.1 (hfx ▸ List.mem_map_of_mem f hx)
      simp [hz]
    | succ j =>
      simp only [List.get?_cons_succ] at hget
      have hmem : a ∈ bs := List.get?_mem hget
      have hbne : f b ≠ f a := by
        intro hfeq
        exact hnodup.1 (hfeq ▸ List.mem_map_of_mem f hmem)
      rw [List.countP_cons, ih j hnodup.2 hget]
      simp [hbne]

theorem length_filter_not_f (f : α → String) (l : List α) (i : Nat) (a : α)
    (hnodup : (l.map f).Nodup) (hget : l.get? i = some a) :
    (l.filter fun x => ¬ (f x = f a)).length = l.length - 1 := by
  have hperm := List.filter_append_perm (fun x => f x = f a) l
  have hlen := hperm.length_eq
  rw [List.length_append] at hlen
  have hone : (l.filter fun x => f x = f a).length = 1 := by
    rw [← List.countP_eq_length_filter]
    exact countP_f_eq_one f l i a hnodup hget
  have hcongr : (l.filter fun x => ¬ (f x = f a))
      = l.filter fun x => !(decide (f x = f a)) := by
    apply List.filter_congr
    intro x _
    simp
  rw [hcongr]
  omega

theorem findIndex_mapWithIdx (p : β → Bool) (g : Nat → α → β) (q : α → Bool)
    (hpq : ∀ i a, p (g i a) = q a) :
    ∀ (n : Nat) (l : List α), findIndex p (mapWithIdx g n l) = findIndex q l := by
  intro n l
  induction l generalizing n with
  | nil => rfl
  | cons a as ih =>
    simp only [mapWithIdx, findIndex, hpq, ih (n + 1)]

theorem map_id_mapWithIdx (g : Nat → Player → Player)
    (hg : ∀ i a, (g i a).id = a.id) :
    ∀ (n : Nat) (l : List Player), (mapWithIdx g n l).map Player.id = l.map Player.id := by
  intro n l
  induction l generalizing n with
  | nil => rfl
  | cons a as ih =>
    simp only [mapWithIdx, List.map_cons, hg, ih (n + 1)]
theorem eliminatePlayer_spec (eRnd : Nat → Nat) (t : GameState) (pid : String)
    (pi : Nat) (ep : Player)
    (hfi : findIndex (fun p => p.id = pid) t.players = some pi)
    (hgi : t.players.get? pi = some ep)
    (hnodup : (t.players.map Player.id).Nodup)
    (hpid : ep.id = pid)
    (hn : 2 ≤ t.players.length)
    (hcur : t.currentPlayerIndex < t.players.length) :
    (∀ p ∈ (eliminatePlayer eRnd t pid).players, p.id ≠ pid) ∧
    (eliminatePlayer eRnd t pid).players.length = t.players.length - 1 ∧
    (eliminatePlayer eRnd t pid).drawPile.Perm (t.drawPile ++ ep.cards) ∧
    (eliminatePlayer eRnd t pid).discardPile = t.discardPile ∧
    (2 ≤ (eliminatePlayer eRnd t pid).players.length →
      (eliminatePlayer eRnd t pid).currentPlayerIndex =
        (if pi < t.currentPlayerIndex then t.currentPlayerIndex - 1
          else if pi = t.currentPlayerIndex then
            t.currentPlayerIndex % (t.players.length - 1)
          else t.currentPlayerIndex) ∧
      (eliminatePlayer eRnd t pid).currentPlayerIndex
        < (eliminatePlayer eRnd t pid).players.length) ∧
    ((eliminatePlayer eRnd t pid).players.length = 1 →
      (eliminatePlayer eRnd t pid).status = .finished ∧
      ∃ p, (eliminatePlayer eRnd t pid).players = [p] ∧
        (eliminatePlayer eRnd t pid).winnerId = some p.id) := by
  have hpi := findIndex_lt_length _ _ _ hfi
  have hRlen : (t.players.filter fun p => ¬ (p.id = pid)).length
      = t.players.length - 1 := by
    have hf := length_filter_not_f Player.id t.players pi ep hnodup hgi
    rw [hpid] at hf
    exact hf
  have hmemne : ∀ p ∈ (t.players.filter fun p => ¬ (p.id = pid)), p.id ≠ pid := by
    intro p hp
    have := (List.mem_filter.mp hp).2
    simpa using this
  unfold eliminatePlayer
  rw [hfi]
  dsimp only
  rw [hgi]
  dsimp only
  split
  · rename_i h1
    refine ⟨hmemne, ?_, perm_shuffleDeck eRnd _, rfl, ?_, ?_⟩
    · dsimp only
      exact hRlen
    · intro h2
      dsimp only at h2
      omega
    · intro _
      refine ⟨rfl, ?_⟩
      obtain ⟨p, hp⟩ := List.length_eq_one.mp h1
      refine ⟨p, ?_, ?_⟩
      · dsimp only
        exact hp
      · dsimp only
        rw [hp]
        rfl
  · rename_i h1
    refine ⟨hmemne, ?_, perm_shuffleDeck eRnd _, rfl, ?_, ?_⟩
    · dsimp only
      exact hRlen
    · intro _
      constructor
      · dsimp only
        rw [hRlen]
      · dsimp only
        rw [hRlen]
        split
        · omega
        · split
          · exact Nat.mod_lt _ (by omega)
          · omega
    · intro h12
      dsimp only at h12
      exact absurd h12 h1
/-- C7: a `drawCards` call that leaves the drawing player with at least 25
cards removes that player from the roster, returns their entire (post-draw)
hand reshuffled into the draw pile, adjusts the current-turn index to stay
valid (decrement when the eliminated seat preceded the turn, modulo the new
roster size when it was the turn), and — when exactly one player remains —
finishes the game with that player as winner. -/
theorem c7_draw_elimination (rnd : Nat → Nat → Nat) (idGen : Nat → Nat → String)
    (eRnd : Nat → Nat) (s s' : GameState) (pid : String) (count pi : Nat)
    (player : Player)
    (h : drawCards rnd idGen eRnd s pid count = some s')
    (hfind : findIndex (fun p => p.id = pid) s.players = some pi)
    (hget : s.players.get? pi = some player)
    (hnodup : (s.players.map Player.id).Nodup)
    (hn : 2 ≤ s.players.length)
    (hcur : s.currentPlayerIndex < s.players.length)
    (h25 : 25 ≤ player.cards.length +
      (drawLoop rnd idGen count (s.drawPile, s.discardPile, [])).2.2.length) :
    (∀ p ∈ s'.players, p.id ≠ pid) ∧
    s'.players.length = s.players.length - 1 ∧
    s'.drawPile.Perm ((drawLoop rnd idGen count (s.drawPile, s.discardPile, [])).1
      ++ (player.cards ++ (drawLoop rnd idGen count (s.drawPile, s.discardPile, [])).2.2)) ∧
    (2 ≤ s'.players.length →
      s'.currentPlayerIndex =
        (if pi < s.currentPlayerIndex then s.currentPlayerIndex - 1
          else if pi = s.currentPlayerIndex then
            s.currentPlayerIndex % (s.players.length - 1)
          else s.currentPlayerIndex) ∧
      s'.currentPlayerIndex < s'.players.length) ∧
    (s'.players.length = 1 →
      s'.status = .finished ∧ ∃ p, s'.players = [p] ∧ s'.winnerId = some p.id) := by
  have hpid : player.id = pid := by
    obtain ⟨a, ha, hpa⟩ := findIndex_found _ _ _ hfind
    rw [hget] at ha
    have hap := Option.some.inj ha
    subst hap
    simpa using hpa
  unfold drawCards at h
  rw [hfind] at h
  dsimp only at h
  rw [get?_mapWithIdx, hget] at h
  simp only [Option.map_some', Nat.zero_add, if_pos] at h
  rw [if_pos (by simp only [List.length_append]; exact h25)] at h
  have hs' := Option.some.inj h
  subst hs'
  have hupd : ∀ (i : Nat) (a : Player),
      ((fun idx p => if idx = pi then
          { p with
            cards := p.cards ++ (drawLoop rnd idGen count (s.drawPile, s.discardPile, [])).2.2,
            hasCalledUno := false }
        else p) i a).id = a.id := by
    intro i a
    by_cases hia : i = pi <;> simp [hia]
  have hspec := eliminatePlayer_spec eRnd
    { s with
      players := mapWithIdx
        (fun idx p => if idx = pi then
            { p with
              cards := p.cards ++ (drawLoop rnd idGen count (s.drawPile, s.discardPile, [])).2.2,
              hasCalledUno := false }
          else p) 0 s.players,
      drawPile := (drawLoop rnd idGen count (s.drawPile, s.discardPile, [])).1,
      discardPile := (drawLoop rnd idGen count (s.drawPile, s.discardPile, [])).2.1 }
    pid pi
    { player with
      cards := player.cards ++ (drawLoop rnd idGen count (s.drawPile, s.discardPile, [])).2.2,
      hasCalledUno := false }
    (by
      dsimp only
      rw [findIndex_mapWithIdx _ _ (fun p => p.id = pid) (by intro i a; rw [hupd]) 0]
      exact hfind)
    (by
      dsimp only
      rw [get?_mapWithIdx, hget]
      simp)
    (by
      dsimp only
      rw [map_id_mapWithIdx _ hupd 0]
      exact hnodup)
    hpid
    (by
      dsimp only
      rw [length_mapWithIdx]
      exact hn)
    (by
      dsimp only
      rw [length_mapWithIdx]
      exact hcur)
  obtain ⟨ha, hb, hc, hdisc, hd, he⟩ := hspec
  refine ⟨ha, ?_, hc, ?_, he⟩
  · rw [hb]
    dsimp only
    rw [length_mapWithIdx]
  · intro h2
    obtain ⟨hidx, hvalid⟩ := hd h2
    refine ⟨?_, hvalid⟩
    rw [hidx]
    dsimp only
    rw [length_mapWithIdx]
/-- Fixture for the C7 witness: drawing one card pushes "a" to 25. -/
def c7WState : GameState :=
  mkState [mkPlayer "a" bigHand, mkPlayer "b" [numCard "bb" .blue 2]] 0
    [numCard "d1" .green 3] [numCard "t" .red 7] .red 0 none

/-- The state that `drawCards` actually produces from `c7WState`. -/
def c7WResult : GameState :=
  (drawCards (fun _ _ => 0) (fun _ _ => "x") (fun _ => 0) c7WState "a" 1).getD c7WState

set_option maxRecDepth 200000 in
/-- C7 (witness): the elimination contract at a concrete state. -/
theorem c7_witness :
    drawCards (fun _ _ => 0) (fun _ _ => "x") (fun _ => 0) c7WState "a" 1
      = some c7WResult ∧
    (∀ p ∈ c7WResult.players, p.id ≠ "a") ∧
    c7WResult.players.length = c7WState.players.length - 1 ∧
    (c7WResult.players.length = 1 →
      c7WResult.status = .finished ∧
      ∃ p, c7WResult.players = [p] ∧ c7WResult.winnerId = some p.id) := by
  have h := c7_draw_elimination (fun _ _ => 0) (fun _ _ => "x") (fun _ => 0)
    c7WState c7WResult "a" 1 0 (mkPlayer "a" bigHand)
    (by decide) (by decide) (by decide) (by decide) (by decide) (by decide) (by decide)
  exact ⟨by decide, h.1, h.2.1, h.2.2.2.2⟩
/-! ### C2 — card-count conservation -/

theorem drawStep_total (r : Nat → Nat) (g : Nat → String)
    (st : List Card × List Card × List Card) :
    (drawStep r g st).1.length + (drawStep r g st).2.1.length
      + (drawStep r g st).2.2.length
      = st.1.length + st.2.1.length + st.2.2.length := by
  obtain ⟨dp, dc, dn⟩ := st
  unfold drawStep
  dsimp only
  by_cases hdp : dp.length = 0
  · rw [if_pos hdp]
    dsimp only
    cases hgl : dc.getLast? with
    | none =>
      have hdc : dc = [] := List.getLast?_eq_none_iff.mp hgl
      subst hdc
      simp [shuffleDeck, fyLoop, mapWithIdx, hdp]
    | some t =>
      have hne : dc ≠ [] := by
        intro hdc
        subst hdc
        simp at hgl
      have hlen : 1 ≤ dc.length := List.length_pos.mpr hne
      have hlshuf : (shuffleDeck r (mapWithIdx (fun i card => { card with id := g i })
          0 dc.dropLast)).length = dc.length - 1 := by
        rw [length_shuffleDeck, length_mapWithIdx, List.length_dropLast]
      cases hgl2 : (shuffleDeck r (mapWithIdx (fun i card => { card with id := g i })
          0 dc.dropLast)).getLast? with
      | none =>
        have hz : (shuffleDeck r (mapWithIdx (fun i card => { card with id := g i })
            0 dc.dropLast)) = [] := List.getLast?_eq_none_iff.mp hgl2
        rw [hz] at hlshuf
        simp only [hz, List.length_nil] at hlshuf ⊢
        simp only [List.length_cons, List.length_nil]
        omega
      | some c =>
        have hnz : (shuffleDeck r (mapWithIdx (fun i card => { card with id := g i })
            0 dc.dropLast)) ≠ [] := by
          intro hz
          rw [hz] at hgl2
          simp at hgl2
        have hge : 1 ≤ (shuffleDeck r (mapWithIdx (fun i card => { card with id := g i })
            0 dc.dropLast)).length := List.length_pos.mpr hnz
        simp only [List.length_dropLast, List.length_append, List.length_cons,
          List.length_nil]
        omega
  · rw [if_neg hdp]
    dsimp only
    cases hgl : dp.getLast? with
    | none =>
      have hdpz : dp = [] := List.getLast?_eq_none_iff.mp hgl
      subst hdpz
      simp
    | some c =>
      have hne : dp ≠ [] := by
        intro hz
        rw [hz] at hgl
        simp at hgl
      have hge : 1 ≤ dp.length := List.length_pos.mpr hne
      simp only [List.length_dropLast, List.length_append, List.length_cons,
        List.length_nil]
      omega

theorem drawLoop_total (rnd : Nat → Nat → Nat) (idGen : Nat → Nat → String)
    (count : Nat) (init : List Card × List Card × List Card) :
    (drawLoop rnd idGen count init).1.length + (drawLoop rnd idGen count init).2.1.length
      + (drawLoop rnd idGen count init).2.2.length
      = init.1.length + init.2.1.length + init.2.2.length := by
  induction count with
  | zero => simp [drawLoop]
  | succ n ih =>
    unfold drawLoop at ih ⊢
    rw [List.range_succ, List.foldl_append, List.foldl_cons, List.foldl_nil]
    rw [drawStep_total]
    exact ih
theorem mapWithIdx_eq_self_of_gt (F : Player → Player) (pi : Nat) :
    ∀ (n : Nat) (l : List Player), pi < n →
      mapWithIdx (fun idx p => if idx = pi then F p else p) n l = l := by
  intro n l
  induction l generalizing n with
  | nil => intro _; rfl
  | cons a as ih =>
    intro hlt
    simp only [mapWithIdx, if_neg (by omega : ¬ n = pi)]
    rw [ih (n + 1) (by omega)]

/-- Updating one seat changes the total of a per-player measure by exactly the
change at that seat (stated additively to avoid truncated subtraction). -/
theorem sum_measure_mapWithIdx (measure : Player → Nat) (F : Player → Player) (pi : Nat) :
    ∀ (n : Nat) (l : List Player) (player : Player), n ≤ pi →
      l.get? (pi - n) = some player →
      ((mapWithIdx (fun idx p => if idx = pi then F p else p) n l).map measure).sum
          + measure player
        = (l.map measure).sum + measure (F player) := by
  intro n l
  induction l generalizing n with
  | nil => intro player _ hget; simp at hget
  | cons a as ih =>
    intro player hle hget
    by_cases hn : n = pi
    · subst hn
      simp only [Nat.sub_self, List.get?_cons_zero] at hget
      have ha := Option.some.inj hget
      subst ha
      simp only [mapWithIdx, List.map_cons, List.sum_cons,
        mapWithIdx_eq_self_of_gt F n (n + 1) as (by omega)]
      simp only [if_true]
      omega
    · have hlt : n < pi := by omega
      have hget' : as.get? (pi - (n + 1)) = some player := by
        have hsub : pi - n = (pi - (n + 1)) + 1 := by omega
        rw [hsub] at hget
        simpa using hget
      simp only [mapWithIdx, if_neg hn, List.map_cons, List.sum_cons]
      have := ih (n + 1) player (by omega) hget'
      omega

theorem length_filter_mem (L S : List String) (hS : S.Nodup) (hL : L.Nodup)
    (hsub : ∀ x ∈ S, x ∈ L) :
    (L.filter fun x => S.contains x).length = S.length := by
  have hq : (L.filter fun x => S.contains x) = L.filter fun x => decide (x ∈ S) := by
    apply List.filter_congr
    intro x _
    simp [List.contains, List.elem_iff]
  rw [hq]
  have hnodupF : (L.filter fun x => decide (x ∈ S)).Nodup := hL.filter _
  rw [← List.toFinset_card_of_nodup hnodupF, List.toFinset_filter]
  have hfe : Finset.filter (fun x => decide (x ∈ S) = true) L.toFinset
      = Finset.filter (fun x => x ∈ S.toFinset) L.toFinset := by
    apply Finset.filter_congr
    intro x _
    simp
  rw [hfe, Finset.filter_mem_eq_inter, Finset.inter_eq_right.mpr ?hsub]
  · exact List.toFinset_card_of_nodup hS
  case hsub =>
    intro x hx
    rw [List.mem_toFinset] at hx ⊢
    exact hsub x hx
theorem totalCards_eliminatePlayer (eRnd : Nat → Nat) (t : GameState) (pid : String)
    (pi : Nat) (ep : Player)
    (hfi : findIndex (fun p => p.id = pid) t.players = some pi)
    (hgi : t.players.get? pi = some ep)
    (hnodup : (t.players.map Player.id).Nodup) :
    totalCards (eliminatePlayer eRnd t pid) = totalCards t := by
  have hpid : ep.id = pid := by
    obtain ⟨a, ha, hpa⟩ := findIndex_found _ _ _ hfi
    rw [hgi] at ha
    have hae := Option.some.inj ha
    subst hae
    simpa using hpa
  have hsum : ((t.players.filter fun p => ¬ (p.id = pid)).map fun p => p.cards.length).sum
      + ep.cards.length = (t.players.map fun p => p.cards.length).sum := by
    have hperm := List.filter_append_perm (fun p => decide (p.id = pid)) t.players
    have hsums := (hperm.map fun p => p.cards.length).sum_eq
    rw [List.map_append, List.sum_append] at hsums
    have hone : (t.players.filter fun p => decide (p.id = pid)) = [ep] := by
      have hlen1 : (t.players.filter fun p => decide (p.id = pid)).length = 1 := by
        rw [← List.countP_eq_length_filter]
        have hc := countP_f_eq_one Player.id t.players pi ep hnodup hgi
        rw [hpid] at hc
        exact hc
      obtain ⟨x, hx⟩ := List.length_eq_one.mp hlen1
      have hmem : ep ∈ t.players.filter fun p => decide (p.id = pid) := by
        rw [List.mem_filter]
        exact ⟨List.get?_mem hgi, by simp [hpid]⟩
      rw [hx] at hmem
      simp only [List.mem_singleton] at hmem
      rw [hx, hmem]
    rw [hone] at hsums
    have hcongr : (t.players.filter fun p => ¬ (p.id = pid))
        = t.players.filter fun p => !(decide (p.id = pid)) := by
      apply List.filter_congr
      intro x _
      simp
    rw [hcongr]
    simp only [List.map_cons, List.map_nil, List.sum_cons, List.sum_nil] at hsums
    omega
  unfold eliminatePlayer
  rw [hfi]
  dsimp only
  rw [hgi]
  dsimp only
  have hshuf : (shuffleDeck eRnd (t.drawPile ++ ep.cards)).length
      = t.drawPile.length + ep.cards.length := by
    rw [length_shuffleDeck, List.length_append]
  split
  · unfold totalCards
    dsimp only
    rw [hshuf]
    omega
  · unfold totalCards
    dsimp only
    rw [hshuf]
    omega
theorem totalCards_drawCards (rnd : Nat → Nat → Nat) (idGen : Nat → Nat → String)
    (eRnd : Nat → Nat) (s s' : GameState) (pid : String) (count : Nat)
    (hnodup : (s.players.map Player.id).Nodup)
    (h : drawCards rnd idGen eRnd s pid count = some s') :
    totalCards s' = totalCards s := by
  obtain ⟨pi, hfi⟩ : ∃ pi, findIndex (fun p => p.id = pid) s.players = some pi := by
    cases hf : findIndex (fun p => p.id = pid) s.players with
    | none => rw [drawCards, hf] at h; exact absurd h (by simp)
    | some pi => exact ⟨pi, rfl⟩
  obtain ⟨player, hget, hpa⟩ := findIndex_found _ _ _ hfi
  have hupd : ∀ (i : Nat) (a : Player),
      ((fun idx p => if idx = pi then
          { p with
            cards := p.cards ++ (drawLoop rnd idGen count (s.drawPile, s.discardPile, [])).2.2,
            hasCalledUno := false }
        else p) i a).id = a.id := by
    intro i a
    by_cases hia : i = pi <;> simp [hia]
  have hTinter : totalCards
      { s with
        players := mapWithIdx
          (fun idx p => if idx = pi then
              { p with
                cards := p.cards ++
                  (drawLoop rnd idGen count (s.drawPile, s.discardPile, [])).2.2,
                hasCalledUno := false }
            else p) 0 s.players,
        drawPile := (drawLoop rnd idGen count (s.drawPile, s.discardPile, [])).1,
        discardPile := (drawLoop rnd idGen count (s.drawPile, s.discardPile, [])).2.1 }
      = totalCards s := by
    unfold totalCards
    dsimp only
    have hsum := sum_measure_mapWithIdx (fun p => p.cards.length)
      (fun p =>
        { p with
          cards := p.cards ++ (drawLoop rnd idGen count (s.drawPile, s.discardPile, [])).2.2,
          hasCalledUno := false })
      pi 0 s.players player (by omega) (by simpa using hget)
    have hloop := drawLoop_total rnd idGen count (s.drawPile, s.discardPile, [])
    dsimp only at hsum hloop
    simp only [List.length_append, List.length_nil] at hsum hloop
    omega
  unfold drawCards at h
  rw [hfi] at h
  dsimp only at h
  rw [get?_mapWithIdx, hget] at h
  simp only [Option.map_some', Nat.zero_add, if_pos] at h
  split at h
  · have hs' := Option.some.inj h
    subst hs'
    rw [totalCards_eliminatePlayer eRnd _ pid pi
      { player with
        cards := player.cards ++ (drawLoop rnd idGen count (s.drawPile, s.discardPile, [])).2.2,
        hasCalledUno := false }
      ?hfi2 ?hgi2 ?hnodup2]
    · exact hTinter
    case hfi2 =>
      dsimp only
      rw [findIndex_mapWithIdx _ _ (fun p => p.id = pid) (by intro i a; rw [hupd]) 0]
      exact hfi
    case hgi2 =>
      dsimp only
      rw [get?_mapWithIdx, hget]
      simp
    case hnodup2 =>
      dsimp only
      rw [map_id_mapWithIdx _ hupd 0]
      exact hnodup
  · have hs' := Option.some.inj h
    subst hs'
    exact hTinter
theorem totalCards_handleCardEffect (crRnd : Nat) (s : GameState) (card : Card)
    (pid : String) (col : Option CardColor) :
    totalCards (handleCardEffect crRnd s card pid col) = totalCards s := by
  unfold totalCards
  rw [handleCardEffect_players, handleCardEffect_drawPile, handleCardEffect_discardPile]

theorem length_filter_not_contains (hand cards : List Card)
    (hsub : ∀ c ∈ cards, c ∈ hand)
    (hcN : (cards.map Card.id).Nodup) (hhN : (hand.map Card.id).Nodup) :
    (hand.filter fun c => ¬ ((cards.map Card.id).contains c.id)).length
        + cards.length = hand.length := by
  have hsub' : ∀ x ∈ cards.map Card.id, x ∈ hand.map Card.id := by
    intro x hx
    obtain ⟨c, hc, rfl⟩ := List.mem_map.mp hx
    exact List.mem_map_of_mem Card.id (hsub c hc)
  have hmem := length_filter_mem (hand.map Card.id) (cards.map Card.id) hcN hhN hsub'
  have hfm := @List.filter_map Card String (fun i => (cards.map Card.id).contains i) Card.id hand
  have hlenfm := congrArg List.length hfm
  rw [List.length_map] at hlenfm
  have hpos : (hand.filter fun c => (cards.map Card.id).contains c.id).length
      = cards.length := by
    have : ((hand.map Card.id).filter fun i => (cards.map Card.id).contains i).length
        = (hand.filter fun c => (cards.map Card.id).contains c.id).length := by
      rw [hlenfm]
      rfl
    rw [← this, hmem, List.length_map]
  have hperm := List.filter_append_perm
    (fun c => (cards.map Card.id).contains c.id) hand
  have hlens := hperm.length_eq
  rw [List.length_append] at hlens
  have hcongr : (hand.filter fun c => ¬ ((cards.map Card.id).contains c.id))
      = hand.filter fun c => !((cards.map Card.id).contains c.id) := by
    apply List.filter_congr
    intro x _
    cases hb : (cards.map Card.id).contains x.id <;> simp [hb]
  rw [hcongr]
  omega
/-- C2: during an active game, every Rules Engine transition — `playCard`,
`playMultipleCards`, `playDiscardAll`, `drawCards`, `processDrawPenalty`,
`challengeUno` — preserves the sum of all hand sizes plus both pile sizes,
with the played cards taken from the acting player's hand (stated as: the
cards are in the hand and card/player identifiers are duplicate-free), and
this holds across an elimination as well. -/
theorem c2_card_conservation :
    (∀ (crRnd : Nat) (s : GameState) (playerId : String) (card : Card)
        (selectedColor : Option CardColor) (s' : GameState) (pi : Nat) (player : Player),
      s.status = .playing →
      playCard crRnd s playerId card selectedColor = some s' →
      findIndex (fun p => p.id = playerId) s.players = some pi →
      s.players.get? pi = some player →
      card ∈ player.cards →
      (player.cards.map Card.id).Nodup →
      totalCards s' = totalCards s) ∧
    (∀ (s : GameState) (playerId : String) (cards : List Card)
        (s' : GameState) (pi : Nat) (player : Player),
      s.status = .playing →
      playMultipleCards s playerId cards = some s' →
      findIndex (fun p => p.id = playerId) s.players = some pi →
      s.players.get? pi = some player →
      (∀ c ∈ cards, c ∈ player.cards) →
      (cards.map Card.id).Nodup →
      (player.cards.map Card.id).Nodup →
      totalCards s' = totalCards s) ∧
    (∀ (s : GameState) (playerId : String) (cards : List Card)
        (s' : GameState) (pi : Nat) (player : Player),
      s.status = .playing →
      playDiscardAll s playerId cards = some s' →
      findIndex (fun p => p.id = playerId) s.players = some pi →
      s.players.get? pi = some player →
      (∀ c ∈ cards, c ∈ player.cards) →
      (cards.map Card.id).Nodup →
      (player.cards.map Card.id).Nodup →
      totalCards s' = totalCards s) ∧
    (∀ (rnd : Nat → Nat → Nat) (idGen : Nat → Nat → String) (eRnd : Nat → Nat)
        (s s' : GameState) (playerId : String) (count : Nat),
      s.status = .playing →
      (s.players.map Player.id).Nodup →
      drawCards rnd idGen eRnd s playerId count = some s' →
      totalCards s' = totalCards s) ∧
    (∀ (rnd : Nat → Nat → Nat) (idGen : Nat → Nat → String) (eRnd : Nat → Nat)
        (s s' : GameState),
      s.status = .playing →
      (s.players.map Player.id).Nodup →
      processDrawPenalty rnd idGen eRnd s = some s' →
      totalCards s' = totalCards s) ∧
    (∀ (rnd : Nat → Nat → Nat) (idGen : Nat → Nat → String) (eRnd : Nat → Nat)
        (s s' : GameState) (challengerId targetId : String),
      s.status = .playing →
      (s.players.map Player.id).Nodup →
      challengeUno rnd idGen eRnd s challengerId targetId = some s' →
      totalCards s' = totalCards s) := by
  refine ⟨?_, ?_, ?_, ?_, ?_, ?_⟩
  · intro crRnd s playerId card selectedColor s' pi player hstatus h hfind hget hmem hhandN
    obtain ⟨ci, hci⟩ := List.get?_of_mem hmem
    have hflen : (player.cards.filter fun c => ¬ (c.id = card.id)).length
        = player.cards.length - 1 :=
      length_filter_not_f Card.id player.cards ci card hhandN hci
    have hlenpos : 1 ≤ player.cards.length := by
      have hlt := (List.get?_eq_some.mp hci).1
      omega
    unfold playCard at h
    split at h
    · exact absurd h (by simp)
    · exact absurd h (by simp)
    · split at h
      · exact absurd h (by simp)
      · rename_i pj hfj
        rw [hfind] at hfj
        have hpj := Option.some.inj hfj
        subst hpj
        split at h
        · exact absurd h (by simp)
        · rename_i player2 hget2
          rw [hget] at hget2
          have hp2 := Option.some.inj hget2
          subst hp2
          try dsimp only at h
          split at h <;>
            (have hs' := Option.some.inj h; subst hs';
             unfold totalCards;
             try dsimp only;
             rw [handleCardEffect_players, handleCardEffect_drawPile,
               handleCardEffect_discardPile];
             try dsimp only;
             rw [List.length_append];
             have hsum := sum_measure_mapWithIdx (fun p => p.cards.length)
               (fun p => { p with
                 cards := player.cards.filter fun c => ¬ (c.id = card.id) })
               pi 0 s.players player (by omega) (by simpa using hget);
             try dsimp only at hsum;
             simp only [List.length_cons, List.length_nil];
             omega)
  · intro s playerId cards s' pi player hstatus h hfind hget hsub hcardsN hhandN
    have hremove := length_filter_not_contains player.cards cards hsub hcardsN hhandN
    have hsort : (cards.mergeSort (playableLast s playerId)).length = cards.length :=
      (List.mergeSort_perm cards (playableLast s playerId)).length_eq
    unfold playMultipleCards at h
    split at h
    · exact absurd h (by simp)
    · exact absurd h (by simp)
    · split at h
      · exact absurd h (by simp)
      · rename_i pj hfj
        rw [hfind] at hfj
        have hpj := Option.some.inj hfj
        subst hpj
        split at h
        · exact absurd h (by simp)
        · rename_i player2 hget2
          rw [hget] at hget2
          have hp2 := Option.some.inj hget2
          subst hp2
          try dsimp only at h
          split at h
          · exact absurd h (by simp)
          · rename_i lastCard hl
            split at h <;>
              (have hs' := Option.some.inj h; subst hs';
               unfold totalCards;
               try dsimp only;
               rw [List.length_append];
               have hsum := sum_measure_mapWithIdx (fun p => p.cards.length)
                 (fun p => { p with
                   cards := player.cards.filter
                     fun c => ¬ ((cards.map Card.id).contains c.id) })
                 pi 0 s.players player (by omega) (by simpa using hget);
               try dsimp only at hsum;
               omega)
  · intro s playerId cards s' pi player hstatus h hfind hget hsub hcardsN hhandN
    have hremove := length_filter_not_contains player.cards cards hsub hcardsN hhandN
    unfold playDiscardAll at h
    split at h
    · exact absurd h (by simp)
    · split at h
      · exact absurd h (by simp)
      · rename_i firstCard hhd
        split at h
        · exact absurd h (by simp)
        · rename_i pj hfj
          rw [hfind] at hfj
          have hpj := Option.some.inj hfj
          subst hpj
          split at h
          · exact absurd h (by simp)
          · rename_i player2 hget2
            rw [hget] at hget2
            have hp2 := Option.some.inj hget2
            subst hp2
            try dsimp only at h
            split at h
            · exact absurd h (by simp)
            · split at h
              · exact absurd h (by simp)
              · split at h <;>
                  (have hs' := Option.some.inj h; subst hs';
                   unfold totalCards;
                   try dsimp only;
                   rw [List.length_append];
                   have hsum := sum_measure_mapWithIdx (fun p => p.cards.length)
                     (fun p => { p with
                       cards := player.cards.filter
                         fun c => ¬ ((cards.map Card.id).contains c.id) })
                     pi 0 s.players player (by omega) (by simpa using hget);
                   try dsimp only at hsum;
                   omega)
  · intro rnd idGen eRnd s s' playerId count hstatus hnodup h
    exact totalCards_drawCards rnd idGen eRnd s s' playerId count hnodup h
  · intro rnd idGen eRnd s s' hstatus hnodup h
    unfold processDrawPenalty at h
    split at h
    · have hs' := Option.some.inj h
      subst hs'
      rfl
    · split at h
      · exact absurd h (by simp)
      · rename_i cp hcp
        split at h
        · exact absurd h (by simp)
        · rename_i d hd
          have hs' := Option.some.inj h
          subst hs'
          have hT := totalCards_drawCards rnd idGen eRnd s d cp.id s.pendingDrawCount
            hnodup hd
          unfold totalCards at hT ⊢
          dsimp only
          exact hT
  · intro rnd idGen eRnd s s' challengerId targetId hstatus hnodup h
    unfold challengeUno at h
    split at h
    · exact absurd h (by simp)
    · split at h
      · exact absurd h (by simp)
      · split at h
        · exact absurd h (by simp)
        · exact totalCards_drawCards rnd idGen eRnd s s' targetId 4 hnodup h
/-- Fixture for the C2 witness. -/
def c2WState : GameState :=
  mkState [mkPlayer "a" [numCard "c1" .red 3, numCard "c2" .red 5],
    mkPlayer "b" [numCard "x" .blue 1]] 0 [numCard "d" .green 2] [numCard "t" .red 7]
    .red 0 none

/-- The state `playCard` actually produces from `c2WState`. -/
def c2WResult : GameState :=
  (playCard 0 c2WState "a" (numCard "c1" .red 3) none).getD c2WState

/-- C2 (witness): conservation across a concrete `playCard`. -/
theorem c2_witness :
    playCard 0 c2WState "a" (numCard "c1" .red 3) none = some c2WResult ∧
    totalCards c2WResult = totalCards c2WState := by
  refine ⟨by decide, ?_⟩
  exact c2_card_conservation.1 0 c2WState "a" (numCard "c1" .red 3) none c2WResult 0
    (mkPlayer "a" [numCard "c1" .red 3, numCard "c2" .red 5]) (by decide) (by decide)
    (by decide) (by decide) (by decide) (by decide)
/-! ### C9 — AI decision shape -/

theorem head?_mem_of_ne {l : List Card} (hne : l ≠ []) :
    ∃ c, l.head? = some c ∧ c ∈ l := by
  cases l with
  | nil => exact absurd rfl hne
  | cons a as => exact ⟨a, rfl, List.mem_cons_self a as⟩

theorem mem_of_head?_eq {l : List Card} {c : Card} (h : l.head? = some c) : c ∈ l := by
  cases l with
  | nil => simp at h
  | cons a as =>
    have hac := Option.some.inj h
    subst hac
    exact List.mem_cons_self a as

theorem mergeSort_head_mem (le : Card → Card → Bool) (l : List Card) (hne : l ≠ []) :
    ∃ c, (l.mergeSort le).head? = some c ∧ c ∈ l := by
  have hlen : (l.mergeSort le).length = l.length := (List.mergeSort_perm l le).length_eq
  have hne' : l.mergeSort le ≠ [] := by
    intro hz
    rw [hz] at hlen
    exact hne (List.length_eq_zero.mp hlen.symm)
  obtain ⟨c, hc, hm⟩ := head?_mem_of_ne hne'
  exact ⟨c, hc, List.mem_mergeSort.mp hm⟩

theorem mem_of_sortDescBy_head (f : Card → Nat) {l : List Card} {c : Card}
    (h : (sortDescBy f l).head? = some c) : c ∈ l :=
  List.mem_mergeSort.mp (mem_of_head?_eq h)

theorem selectMediumDifficulty_spec (playable : List Card) (s : GameState)
    (hne : playable ≠ []) :
    ∃ c, selectMediumDifficulty playable s = some c ∧ c ∈ playable := by
  unfold selectMediumDifficulty
  dsimp only
  split
  · rename_i c heq
    refine ⟨c, rfl, ?_⟩
    split at heq
    · split at heq
      · exact (List.mem_filter.mp (mem_of_sortDescBy_head _ heq)).1
      · split at heq
        · exact (List.mem_filter.mp (mem_of_head?_eq heq)).1
        · exact absurd heq (by simp)
    · exact absurd heq (by simp)
  · split
    · rename_i hnw
      have hnwne : (playable.filter fun c => c.color ≠ CardColor.wild) ≠ [] := by
        intro hz
        rw [hz] at hnw
        simp at hnw
      obtain ⟨c, hc, hm⟩ := mergeSort_head_mem _ _ hnwne
      exact ⟨c, hc, (List.mem_filter.mp hm).1⟩
    · obtain ⟨c, hc, hm⟩ := head?_mem_of_ne hne
      exact ⟨c, hc, hm⟩

theorem selectHardDifficulty_spec (playable : List Card) (s : GameState)
    (player : Player) (hne : playable ≠ []) :
    ∃ c, selectHardDifficulty playable s player = some c ∧ c ∈ playable := by
  unfold selectHardDifficulty
  dsimp only
  split
  · rename_i c heq
    refine ⟨c, rfl, ?_⟩
    split at heq
    · rename_i np
      split at heq
      · split at heq
        · exact (List.mem_filter.mp (mem_of_sortDescBy_head _ heq)).1
        · split at heq
          · exact (List.mem_filter.mp (mem_of_head?_eq heq)).1
          · exact absurd heq (by simp)
      · exact absurd heq (by simp)
    · exact absurd heq (by simp)
  · split
    · rename_i c heq
      refine ⟨c, rfl, ?_⟩
      split at heq
      · split at heq
        · exact (List.mem_filter.mp (mem_of_sortDescBy_head _ heq)).1
        · exact absurd heq (by simp)
      · exact absurd heq (by simp)
    · split
      · rename_i hnw
        have hnwne : (playable.filter fun c => c.color ≠ CardColor.wild) ≠ [] := by
          intro hz
          rw [hz] at hnw
          simp at hnw
        obtain ⟨c, hc, hm⟩ := mergeSort_head_mem _ _ hnwne
        exact ⟨c, hc, (List.mem_filter.mp hm).1⟩
      · split
        · rename_i hrw
          have hrwne : ((playable.filter fun c => c.color = CardColor.wild).filter
              fun c => c.type = CardType.wild) ≠ [] := by
            intro hz
            rw [hz] at hrw
            simp at hrw
          obtain ⟨c, hc, hm⟩ := head?_mem_of_ne hrwne
          exact ⟨c, hc, (List.mem_filter.mp (List.mem_filter.mp hm).1).1⟩
        · obtain ⟨c, hc, hm⟩ := head?_mem_of_ne hne
          exact ⟨c, hc, hm⟩
theorem selectCardToPlay_spec (rnd : Nat) (s : GameState) (player : Player)
    (playable : List Card) (difficulty : AIDifficulty) (hne : playable ≠ []) :
    ∃ d c, selectCardToPlay rnd s player playable difficulty = some d ∧
      d.action = .play ∧ d.card = some c ∧ c ∈ playable := by
  unfold selectCardToPlay
  dsimp only
  split
  · rename_i d heq
    split at heq
    · split at heq
      · rw [Option.map_eq_some'] at heq
        obtain ⟨c, hc, hd⟩ := heq
        refine ⟨d, c, rfl, ?_, ?_, ?_⟩
        · rw [← hd]
        · rw [← hd]
        · exact (List.mem_filter.mp (mem_of_head?_eq hc)).1
      · exact absurd heq (by simp)
    · exact absurd heq (by simp)
  · have hsel : ∃ c, (match difficulty with
        | AIDifficulty.easy => playable.get? (rnd % playable.length)
        | AIDifficulty.medium => selectMediumDifficulty playable s
        | AIDifficulty.hard => selectHardDifficulty playable s player) = some c ∧
        c ∈ playable := by
      cases difficulty with
      | easy =>
        have hpos : 0 < playable.length := List.length_pos.mpr hne
        have hlt : rnd % playable.length < playable.length := Nat.mod_lt _ hpos
        cases hg : playable.get? (rnd % playable.length) with
        | none =>
          rw [List.get?_eq_none] at hg
          omega
        | some c => exact ⟨c, rfl, List.get?_mem hg⟩
      | medium => exact selectMediumDifficulty_spec playable s hne
      | hard => exact selectHardDifficulty_spec playable s player hne
    obtain ⟨c, hc, hm⟩ := hsel
    rw [hc]
    dsimp only
    exact ⟨_, c, rfl, rfl, rfl, hm⟩

/-- C9 (amended): whenever at least one legal card exists, the AI decision is
a play (never a draw) of a card drawn from the player's legal cards; and the
low-card declaration is bundled exactly when the hand holds two cards (so a
single-card play leaves one) — not whenever the chosen play would leave one
card, as the discard-all counterexample shows. -/
theorem c9_ai_plays_legal (rnd : Nat) (s : GameState) (playerId : String)
    (difficulty : AIDifficulty) (player : Player) (playable : List Card)
    (hfind : s.players.find? (fun p => p.id = playerId) = some player)
    (hplayable : getPlayableCards s playerId = some playable)
    (hne : playable ≠ []) :
    (∃ d c, makeAIDecision rnd s playerId difficulty = some d ∧
      d.action ≠ .draw ∧ d.card = some c ∧ c ∈ playable) ∧
    (player.cards.length = 2 →
      ∃ d c, makeAIDecision rnd s playerId difficulty = some d ∧
        d.action = .call_uno ∧ d.card = some c ∧ c ∈ playable) := by
  obtain ⟨d, c, hsel, hact, hcard, hmem⟩ :=
    selectCardToPlay_spec rnd s player playable difficulty hne
  have hpos : 0 < playable.length := List.length_pos.mpr hne
  unfold makeAIDecision
  rw [hfind]
  dsimp only
  rw [hplayable]
  dsimp only
  rw [if_neg (by omega)]
  by_cases h2 : player.cards.length = 2
  · rw [if_pos ⟨h2, hpos⟩, hsel]
    constructor
    · exact ⟨{ d with action := .call_uno }, c, rfl, by simp, hcard, hmem⟩
    · intro _
      exact ⟨{ d with action := .call_uno }, c, rfl, rfl, hcard, hmem⟩
  · rw [if_neg (by intro hc2; exact h2 hc2.1), hsel]
    constructor
    · exact ⟨d, c, rfl, by rw [hact]; decide, hcard, hmem⟩
    · intro h2'
      exact absurd h2' h2
/-- A discard_all card fixture. -/
def daCard : Card := { id := "da", type := .discard_all, color := .red, value := none }

/-- Fixture for the C9 counterexample: four cards, three matching the current
color (including a legal discard_all). -/
def c9CxState : GameState :=
  mkState [mkPlayer "a" [daCard, numCard "r1" .red 1, numCard "r2" .red 2,
      numCard "b3" .blue 3],
    mkPlayer "b" [numCard "y" .yellow 9]] 0 [] [numCard "t" .red 7] .red 0 none

/-- C9 (counterexample): the medium AI special-cases discard_all: from a
four-card hand it decides to play the discard_all together with all three
current-color cards — a play that leaves exactly one card — yet the decision's
action is 'play', with no bundled low-card declaration. -/
theorem c9_counterexample :
    (makeAIDecision 0 c9CxState "a" .medium).map AIDecision.action
      = some AIAction.play ∧
    (makeAIDecision 0 c9CxState "a" .medium).map AIDecision.cards
      = some (some [daCard, numCard "r1" .red 1, numCard "r2" .red 2]) ∧
    (playDiscardAll c9CxState "a" [daCard, numCard "r1" .red 1, numCard "r2" .red 2]).map
      (fun t => t.players.map fun p => p.cards.length) = some [1, 1] := by
  refine ⟨by decide, by decide, by decide⟩

/-- Fixture for the C9 witness: a two-card hand with one legal card. -/
def c9WState : GameState :=
  mkState [mkPlayer "a" [numCard "r1" .red 1, numCard "b3" .blue 3],
    mkPlayer "b" [numCard "y" .yellow 9]] 0 [] [numCard "t" .red 7] .red 0 none

/-- C9 (witness): the amended statement at a concrete two-card hand. -/
theorem c9_witness :
    ∃ d c, makeAIDecision 0 c9WState "a" AIDifficulty.medium = some d ∧
      d.action = .call_uno ∧ d.card = some c ∧ c ∈ [numCard "r1" .red 1] :=
  (c9_ai_plays_legal 0 c9WState "a" .medium
      (mkPlayer "a" [numCard "r1" .red 1, numCard "b3" .blue 3])
      [numCard "r1" .red 1] (by decide) (by decide) (by decide)).2 (by decide)
